import Mathlib

/-!
Material resolution and subpixel averaging of `src/libctl/structure.cpp`.

A shallow embedding of the geometry-to-material layer of `structure.cpp`:
the point queries of `geom_epsilon`, `get_front_object`, `meaneps`,
`fallback_meaneps`, the dynamic-material evaluation loop and the table of
unique polarizabilities.

Conventions of the embedding.

* A C `double` is a rational number (`ℚ`): the arithmetic of the source is
  read as exact arithmetic.  `x / 0` is `0` in `ℚ`; every statement that
  depends on a divisor says separately whether that divisor is zero.
* The C globals `dimensions`, `dim` and `default_material` are the fields of
  an explicit record `Globals`.
* Functions of libctl, Guile and the rest of meep that `structure.cpp` only
  calls are the fields of a record `Library`; theorems hold for every value of
  that record.
* A computation that can stop with `meep::abort`, run into behaviour the
  language leaves undefined, or not finish at all returns a `Result`.
-/

namespace Meep

/-! ## Scalars, vectors, volumes -/

/-- The enumeration `meep::ndim`, in the order of its declaration
(`D1 = 0, D2, D3, Dcyl`). -/
inductive ndim where
  | D1 | D2 | D3 | Dcyl
  deriving DecidableEq, Repr

/-- The libctl structure `vector3`. -/
structure vector3 where
  x : ℚ
  y : ℚ
  z : ℚ
  deriving DecidableEq, Repr

/-- The libctl function `vector3_minus`. -/
def vector3_minus (a b : vector3) : vector3 :=
  ⟨a.x - b.x, a.y - b.y, a.z - b.z⟩

/-- The libctl function `vector3_equal`: componentwise equality. -/
def vector3_equal (a b : vector3) : Bool :=
  decide (a.x = b.x) && decide (a.y = b.y) && decide (a.z = b.z)

/-- The libctl structure `geom_box`. -/
structure geom_box where
  low : vector3
  high : vector3
  deriving DecidableEq, Repr

/-! ## Materials -/

/-- One entry of a `polarizability_list`. -/
structure polarizability where
  omega : ℚ
  gamma : ℚ
  delta_epsilon : ℚ
  energy_saturation : ℚ
  sigma : ℚ
  deriving DecidableEq, Repr

/-- The record behind `subclass.dielectric_data`. -/
structure dielectric where
  epsilon : ℚ
  chi2 : ℚ
  chi3 : ℚ
  polarizations : List polarizability
  deriving DecidableEq, Repr

/-- The tagged union `material_type`: the constructor is `which_subclass`,
its argument is the member of `subclass` that the tag selects.  A Scheme
procedure (`function`) is named by a number. -/
inductive material_type where
  | DIELECTRIC (dielectric_data : dielectric)
  | PERFECT_METAL
  | MATERIAL_FUNCTION (material_func : Nat)
  | MATERIAL_TYPE_SELF
  deriving DecidableEq, Repr

/-- A `geometric_object`: its material and a name for its shape, which only
the external geometry routines look at. -/
structure geometric_object where
  material : material_type
  shape : Nat
  deriving DecidableEq, Repr

/-! ## The table of unique polarizabilities (`add_pol`, `add_pols`,
`add_polarizabilities`) -/

/-- The node payload of `struct pol` (the `next` pointer is the list tail). -/
structure pol where
  omega : ℚ
  gamma : ℚ
  deps : ℚ
  esat : ℚ
  deriving DecidableEq, Repr

/-- The search loop of `add_pol`:
`while (p && !(p->omega == omega && ...)) p = p->next;`.
The result is the list from the node where the loop stops; `[]` is the null
pointer. -/
def pol_search (omega gamma deps esat : ℚ) : List pol → List pol
  | [] => []
  | p :: next =>
    if p.omega = omega ∧ p.gamma = gamma ∧ p.deps = deps ∧ p.esat = esat then p :: next
    else pol_search omega gamma deps esat next

/-- The function `add_pol`: add a polarization to the list if it is not
already there. -/
def add_pol (pols : List pol) (omega gamma deps esat : ℚ) : List pol :=
  match pol_search omega gamma deps esat pols with
  | [] => ⟨omega, gamma, deps, esat⟩ :: pols
  | _ :: _ => pols

/-- The function `add_pols`: the loop over `plist.items`. -/
def add_pols (pols : List pol) (plist : List polarizability) : List pol :=
  plist.foldl (fun acc it => add_pol acc it.omega it.gamma it.delta_epsilon it.energy_saturation)
    pols

/-- The first loop of `add_polarizabilities`: the objects whose material is a
`DIELECTRIC` contribute their polarization lists, in order. -/
def collect_object_pols (pols : List pol) (geometry : List geometric_object) : List pol :=
  geometry.foldl
    (fun acc o =>
      match o.material with
      | .DIELECTRIC d => add_pols acc d.polarizations
      | _ => acc)
    pols

/-- The list `pols` that `add_polarizabilities` has built when it starts to
register: objects first, then the default material. -/
def unique_pols (geometry : List geometric_object) (default_material : material_type) :
    List pol :=
  let pols := collect_object_pols [] geometry
  match default_material with
  | .DIELECTRIC d => add_pols pols d.polarizations
  | _ => pols

/-- The method `geom_epsilon::add_polarizabilities`, as the sequence of calls
`s->add_polarizability(*this, omega, gamma, deps, esat)` it makes: one call
per node of `pols`, from the head. -/
def add_polarizabilities (geometry : List geometric_object)
    (default_material : material_type) : List pol :=
  unique_pols geometry default_material

/-- The tuple of a polarization-list entry. -/
def polarizability.tuple (it : polarizability) : pol :=
  ⟨it.omega, it.gamma, it.delta_epsilon, it.energy_saturation⟩

/-- The tuples that occur in the polarization list of a material; none unless
the material is a `DIELECTRIC`. -/
def material_tuples : material_type → List pol
  | .DIELECTRIC d => d.polarizations.map polarizability.tuple
  | _ => []

/-- All tuples of the geometry: those of the objects and those of the default
material. -/
def geometry_tuples (geometry : List geometric_object) (default_material : material_type) :
    List pol :=
  geometry.flatMap (fun o => material_tuples o.material) ++ material_tuples default_material

/-- The example geometry of the specification: three objects sharing the tuple
`(1.0, 0.1, 2.0, 0.0)` and one object with `(2.0, 0.2, 1.0, 0.0)`. -/
def example_geometry : List geometric_object :=
  let a : material_type := .DIELECTRIC ⟨12, 0, 0, [⟨1, 1/10, 2, 0, 5⟩]⟩
  let b : material_type := .DIELECTRIC ⟨4, 0, 0, [⟨2, 2/10, 1, 0, 7⟩]⟩
  [⟨a, 0⟩, ⟨a, 1⟩, ⟨b, 2⟩, ⟨a, 3⟩]

/-! ## Results of computations -/

/-- What a call can end in: a value, `meep::abort` (also through `CK`) with
its message, behaviour the language leaves undefined (a null pointer
dereferenced, a table read outside its bounds), or no end within the given
number of loop iterations. -/
inductive Result (α : Type) where
  | ok (value : α)
  | abort (message : String)
  | undefined
  | timeout

/-- Sequencing of calls: the first one that does not return a value ends the
computation. -/
def Result.bind {α β : Type} (r : Result α) (f : α → Result β) : Result β :=
  match r with
  | .ok a => f a
  | .abort m => .abort m
  | .undefined => .undefined
  | .timeout => .timeout

instance : Monad Result where
  pure := Result.ok
  bind := Result.bind

/-! ## Points of the grid (`meep::vec`, `meep::geometric_volume`) -/

/-- The enumeration `meep::direction`. -/
inductive direction where
  | X | Y | Z | R | P
  deriving DecidableEq, Repr

/-- The class `meep::vec`, as `structure.cpp` uses it (built with `vec(z)`,
`vec(x, y)`, `vec(x, y, z)` and `veccyl(r, z)`, read with `z()`, `x()`, `y()`
and `r()`): a dimensionality and one coordinate for each direction of that
dimensionality (`Z` in 1d, `X, Y` in 2d, `X, Y, Z` in 3d and `R, Z` in
cylindrical coordinates).  Two vectors are equal when they agree in these. -/
inductive vec where
  | d1 (z : ℚ)
  | d2 (x y : ℚ)
  | d3 (x y z : ℚ)
  | cyl (r z : ℚ)
  deriving DecidableEq, Repr

/-- The member `vec::dim`. -/
def vec.dim : vec → ndim
  | .d1 _ => .D1
  | .d2 _ _ => .D2
  | .d3 _ _ _ => .D3
  | .cyl _ _ => .Dcyl

/-- The vector of dimensionality `di` whose coordinate in direction `d` is
`f d`. -/
def mk_vec (di : ndim) (f : direction → ℚ) : vec :=
  match di with
  | .D1 => .d1 (f .Z)
  | .D2 => .d2 (f .X) (f .Y)
  | .D3 => .d3 (f .X) (f .Y) (f .Z)
  | .Dcyl => .cyl (f .R) (f .Z)

/-- The function `meep::zero_vec`. -/
def zero_vec (di : ndim) : vec := mk_vec di (fun _ => 0)

/-- The class `meep::geometric_volume`: a dimensionality and the arrays
`min_vals`, `max_vals`, indexed by direction. -/
structure geometric_volume where
  dim : ndim
  min_vals : direction → ℚ
  max_vals : direction → ℚ

/-- The method `geometric_volume::get_min_corner`. -/
def geometric_volume.get_min_corner (gv : geometric_volume) : vec :=
  mk_vec gv.dim gv.min_vals

/-- The method `geometric_volume::get_max_corner`. -/
def geometric_volume.get_max_corner (gv : geometric_volume) : vec :=
  mk_vec gv.dim gv.max_vals

/-- The method `geometric_volume::center`:
`(get_min_corner() + get_max_corner()) * 0.5`. -/
def geometric_volume.center (gv : geometric_volume) : vec :=
  mk_vec gv.dim (fun d => (gv.min_vals d + gv.max_vals d) * (1 / 2))

/-! ## Globals and external functions -/

/-- The C globals that `structure.cpp` reads.  `dim` is `none` when the
variable holds a value of the enumeration type that is none of its four
enumerators. -/
structure Globals where
  dimensions : Int
  dim : Option ndim
  default_material : material_type

/-- A `geom_box_tree` is a pointer; two trees are compared as pointers. -/
abbrev geom_box_tree := Nat

/-- What `object_of_point_in_tree` hands back for one point: the object (or
the null pointer), `shiftby` and the precedence `id`. -/
structure sample where
  o : Option geometric_object
  shiftby : vector3
  id : Int
  deriving DecidableEq, Repr

/-- The functions and constants that `structure.cpp` uses and does not define.
`gh_call1 f p` is the material record that `material_type_input` reads from the
value of the Scheme call `(f p)`.  `adaptive_integration f xmin xmax n tol
maxeval` receives the integrand `f n x`, where `x i` is the `i`-th coordinate.
`normal_vector` is the default `material_function::normal_vector`, and
`infinity` is the constant `meep::infinity`. -/
structure Library where
  create_geom_box_tree0 : List geometric_object → geom_box → geom_box_tree
  object_of_point_in_tree : vector3 → geom_box_tree → sample
  material_of_unshifted_point_in_tree_inobject : vector3 → geom_box_tree → material_type
  gh_call1 : Nat → vector3 → material_type
  normal_to_fixed_object : vector3 → geometric_object → vector3
  unit_vector3 : vector3 → vector3
  box_overlap_with_object : geom_box → geometric_object → ℚ → Int → ℚ
  adaptive_integration :
    (Nat → (Nat → ℚ) → Result ℚ) → List ℚ → List ℚ → Nat → ℚ → Int → Result ℚ
  normal_vector : geometric_volume → vec
  infinity : ℚ

/-- Modelled from the spec: `material_type_equal`, which the interface
generator writes and `structure.cpp` calls, is value equality of two
descriptors (same kind and same numeric fields, the polarization list
included). -/
def material_type_equal (a b : material_type) : Bool := decide (a = b)

/-! ## Coordinate conversion -/

/-- The function `vec_to_vector3`. -/
def vec_to_vector3 (v : vec) : vector3 :=
  match v with
  | .d1 z => ⟨0, 0, z⟩
  | .d2 x y => ⟨x, y, 0⟩
  | .d3 x y z => ⟨x, y, z⟩
  | .cyl r z => ⟨r, 0, z⟩

/-- The function `vector3_to_vec`, a switch on the global `dim`. -/
def vector3_to_vec (dim : Option ndim) (v3 : vector3) : Result vec :=
  match dim with
  | some .D1 => .ok (.d1 v3.z)
  | some .D2 => .ok (.d2 v3.x v3.y)
  | some .D3 => .ok (.d3 v3.x v3.y v3.z)
  | some .Dcyl => .ok (.cyl v3.x v3.z)
  | none => .abort "unknown dimensionality in vector3_to_vec"

/-- The function `gv2box`. -/
def gv2box (gv : geometric_volume) : geom_box :=
  ⟨vec_to_vector3 gv.get_min_corner, vec_to_vector3 gv.get_max_corner⟩

/-! ## The facade `geom_epsilon` -/

/-- The data members of `geom_epsilon`, with the members `omega`, `gamma`,
`deps`, `energy_sat` of its base class that `sigma` reads. -/
structure geom_epsilon where
  geometry : List geometric_object
  geometry_tree : geom_box_tree
  restricted_tree : geom_box_tree
  omega : ℚ
  gamma : ℚ
  deps : ℚ
  energy_sat : ℚ

/-- The method `geom_epsilon::unset_volume`.  `destroy_geom_box_tree` frees
memory and changes no member. -/
def unset_volume (s : geom_epsilon) : geom_epsilon :=
  if s.restricted_tree ≠ s.geometry_tree then { s with restricted_tree := s.geometry_tree }
  else s

/-- The method `geom_epsilon::set_volume`. -/
def set_volume (ext : Library) (s : geom_epsilon) (gv : geometric_volume) : geom_epsilon :=
  let s := unset_volume s
  let box := gv2box gv
  { s with restricted_tree := ext.create_geom_box_tree0 s.geometry box }

/-! ## Dynamic materials -/

/-- The loop `while (material.which_subclass == MTS::MATERIAL_FUNCTION)` of
`eval_material_func`, started with `material` after `calls` calls of
`gh_call1`.  Each iteration calls the procedure of the current record at the
same point.  The result carries the number of calls made.  `fuel` is the
number of iterations allowed. -/
def material_func_loop (ext : Library) (p : vector3) :
    Nat → material_type → Nat → Result (material_type × Nat)
  | fuel, .MATERIAL_FUNCTION f, calls =>
    match fuel with
    | 0 => .timeout
    | fuel + 1 => material_func_loop ext p fuel (ext.gh_call1 f p) (calls + 1)
  | _, .DIELECTRIC d, calls => .ok (.DIELECTRIC d, calls)
  | _, .PERFECT_METAL, calls => .ok (.PERFECT_METAL, calls)
  | _, .MATERIAL_TYPE_SELF, calls => .ok (.MATERIAL_TYPE_SELF, calls)

/-- The function `eval_material_func`, with the number of calls of `gh_call1`
it made. -/
def eval_material_func_calls (ext : Library) (g : Globals) (fuel : Nat) (material_func : Nat)
    (p : vector3) : Result (material_type × Nat) :=
  match material_func_loop ext p fuel (ext.gh_call1 material_func p) 1 with
  | .ok (material, calls) =>
    let material :=
      match material with
      | .MATERIAL_TYPE_SELF => g.default_material
      | m => m
    match material with
    | .MATERIAL_FUNCTION _ => .abort "infinite loop in material functions"
    | m => .ok (m, calls)
  | .abort m => .abort m
  | .undefined => .undefined
  | .timeout => .timeout

/-- The function `eval_material_func`. -/
def eval_material_func (ext : Library) (g : Globals) (fuel : Nat) (material_func : Nat)
    (p : vector3) : Result material_type :=
  match eval_material_func_calls ext g fuel material_func p with
  | .ok (material, _) => .ok material
  | .abort m => .abort m
  | .undefined => .undefined
  | .timeout => .timeout

/-- The function `variable_material`, on the tag of a material. -/
def variable_material (m : material_type) : Bool :=
  match m with
  | .MATERIAL_FUNCTION _ => true
  | _ => false

/-- The function `material_eps`: the pair `(eps, eps_inv)`.  The sign of the
zero `-0.0` is not represented. -/
def material_eps (ext : Library) (material : material_type) : Result (ℚ × ℚ) :=
  match material with
  | .DIELECTRIC d => .ok (d.epsilon, 1 / d.epsilon)
  | .PERFECT_METAL => .ok (-ext.infinity, 0)
  | _ => .abort "unknown material type"

/-- The common head of `eps`, `chi3`, `chi2` and `sigma`: the material of the
point in the restricted tree, the default material in place of
`MATERIAL_TYPE_SELF`, and a material function evaluated at the point. -/
def point_material (ext : Library) (g : Globals) (s : geom_epsilon) (fuel : Nat)
    (p : vector3) : Result material_type :=
  let material := ext.material_of_unshifted_point_in_tree_inobject p s.restricted_tree
  let material :=
    match material with
    | .MATERIAL_TYPE_SELF => g.default_material
    | m => m
  match material with
  | .MATERIAL_FUNCTION f => eval_material_func ext g fuel f p
  | m => .ok m

/-- The method `geom_epsilon::eps` (the block under `#ifdef DEBUG` is not
compiled). -/
def eps (ext : Library) (g : Globals) (s : geom_epsilon) (fuel : Nat) (r : vec) : Result ℚ := do
  let p := vec_to_vector3 r
  let material ← point_material ext g s fuel p
  let e ← material_eps ext material
  pure e.1

/-- The method `geom_epsilon::chi3`. -/
def chi3 (ext : Library) (g : Globals) (s : geom_epsilon) (fuel : Nat) (r : vec) : Result ℚ := do
  let p := vec_to_vector3 r
  let material ← point_material ext g s fuel p
  match material with
  | .DIELECTRIC d => pure d.chi3
  | _ => pure 0

/-- The method `geom_epsilon::chi2`. -/
def chi2 (ext : Library) (g : Globals) (s : geom_epsilon) (fuel : Nat) (r : vec) : Result ℚ := do
  let p := vec_to_vector3 r
  let material ← point_material ext g s fuel p
  match material with
  | .DIELECTRIC d => pure d.chi2
  | _ => pure 0

/-- The loop over `plist.items` in `geom_epsilon::sigma`: the `sigma` of the
first entry that matches the four members, `0` when there is none. -/
def sigma_search (omega gamma deps energy_sat : ℚ) : List polarizability → ℚ
  | [] => 0
  | it :: rest =>
    if it.omega = omega ∧ it.gamma = gamma ∧ it.delta_epsilon = deps ∧
        it.energy_saturation = energy_sat then it.sigma
    else sigma_search omega gamma deps energy_sat rest

/-- The method `geom_epsilon::sigma`. -/
def sigma (ext : Library) (g : Globals) (s : geom_epsilon) (fuel : Nat) (r : vec) : Result ℚ := do
  let p := vec_to_vector3 r
  let material ← point_material ext g s fuel p
  match material with
  | .DIELECTRIC d => pure (sigma_search s.omega s.gamma s.deps s.energy_sat d.polarizations)
  | _ => pure 0

/-- The method `geom_epsilon::has_chi3`. -/
def has_chi3 (g : Globals) (s : geom_epsilon) : Bool :=
  if s.geometry.any (fun o =>
      match o.material with
      | .DIELECTRIC d => decide (d.chi3 ≠ 0)
      | _ => false) then true
  else
    match g.default_material with
    | .DIELECTRIC d => decide (d.chi3 ≠ 0)
    | _ => false

/-- The method `geom_epsilon::has_chi2`. -/
def has_chi2 (g : Globals) (s : geom_epsilon) : Bool :=
  if s.geometry.any (fun o =>
      match o.material with
      | .DIELECTRIC d => decide (d.chi2 ≠ 0)
      | _ => false) then true
  else
    match g.default_material with
    | .DIELECTRIC d => decide (d.chi2 ≠ 0)
    | _ => false

/-! ## The frontmost object of a cell (`get_front_object`) -/

/-- The table `num_neighbors`, read at index `i`; `none` outside the table. -/
def num_neighbors (i : Int) : Option Nat :=
  if i = 0 then some 3 else if i = 1 then some 5 else if i = 2 then some 9 else none

/-- The table `neighbors`, row `i` (all nine entries); `none` outside the
table. -/
def neighbors (i : Int) : Option (List (Int × Int × Int)) :=
  if i = 0 then
    some [(0,0,0), (-1,0,0), (1,0,0), (0,0,0), (0,0,0), (0,0,0), (0,0,0), (0,0,0), (0,0,0)]
  else if i = 1 then
    some [(0,0,0), (-1,-1,0), (1,1,0), (-1,1,0), (1,-1,0), (0,0,0), (0,0,0), (0,0,0), (0,0,0)]
  else if i = 2 then
    some [(0,0,0), (1,1,1), (1,1,-1), (1,-1,1), (1,-1,-1),
          (-1,1,1), (-1,1,-1), (-1,-1,1), (-1,-1,-1)]
  else none

/-- The points `q` at which the loop of `get_front_object` queries the tree,
in the order of the loop: `p + neighbors[dimensions - 1][i] * (d1, d2, d3)` for
`i < num_neighbors[dimensions - 1]`.  `none` when `dimensions - 1` is outside
the tables. -/
def stencil_points (dimensions : Int) (gv : geometric_volume) : Option (List vector3) :=
  let pixel := gv2box gv
  let p := vec_to_vector3 gv.center
  let d1 := (pixel.high.x - pixel.low.x) * (1 / 2)
  let d2 := (pixel.high.y - pixel.low.y) * (1 / 2)
  let d3 := (pixel.high.z - pixel.low.z) * (1 / 2)
  match num_neighbors (dimensions - 1), neighbors (dimensions - 1) with
  | some n, some row =>
    some ((row.take n).map (fun nb =>
      (⟨p.x + (nb.1 : ℚ) * d1, p.y + (nb.2.1 : ℚ) * d2, p.z + (nb.2.2 : ℚ) * d3⟩ : vector3)))
  | _, _ => none

/-- The local variables `o1, o2, shiftby1, shiftby2, mat1, mat2, id1, id2`
of `get_front_object`. -/
structure slots where
  o1 : Option geometric_object
  o2 : Option geometric_object
  shiftby1 : vector3
  shiftby2 : vector3
  mat1 : material_type
  mat2 : material_type
  id1 : Int
  id2 : Int
  deriving DecidableEq, Repr

/-- The locals at the start of the loop: no objects, `id1 = id2 = -1`.  The
source leaves `shiftby1`, `shiftby2`, `mat1`, `mat2` without a value here; they
are given one, which the loop does not read before it has assigned them as
long as no sample has `id = -1`. -/
def slots_init : slots :=
  { o1 := none, o2 := none, shiftby1 := ⟨0, 0, 0⟩, shiftby2 := ⟨0, 0, 0⟩,
    mat1 := .MATERIAL_TYPE_SELF, mat2 := .MATERIAL_TYPE_SELF, id1 := -1, id2 := -1 }

/-- The material `mat` of a sample:
`(o && o->material.which_subclass != MTS::MATERIAL_TYPE_SELF) ? o->material :
default_material`. -/
def sample_material (default_material : material_type) (sm : sample) : material_type :=
  match sm.o with
  | some o =>
    match o.material with
    | .MATERIAL_TYPE_SELF => default_material
    | m => m
  | none => default_material

/-- One iteration of the loop of `get_front_object` on the sample of the
point `q`; `none` is `return false`. -/
def front_step (default_material : material_type) (st : slots) (sm : sample) : Option slots :=
  if (sm.id = st.id1 ∧ vector3_equal sm.shiftby st.shiftby1 = true) ∨
      (sm.id = st.id2 ∧ vector3_equal sm.shiftby st.shiftby2 = true) then
    some st
  else
    let mat := sample_material default_material sm
    if st.id1 = -1 then
      some { st with o1 := sm.o, shiftby1 := sm.shiftby, id1 := sm.id, mat1 := mat }
    else if st.id2 = -1 ∨ ((sm.id ≥ st.id1 ∧ sm.id ≥ st.id2) ∧
        (st.id1 = st.id2 ∨ material_type_equal st.mat1 st.mat2 = true)) then
      some { st with o2 := sm.o, shiftby2 := sm.shiftby, id2 := sm.id, mat2 := mat }
    else if ¬ (st.id1 < st.id2 ∧
          (st.id1 = sm.id ∨ material_type_equal st.mat1 mat = true)) ∧
        ¬ (st.id2 < st.id1 ∧
          (st.id2 = sm.id ∨ material_type_equal st.mat2 mat = true)) then
      none
    else some st

/-- The whole loop on the samples that are still to come. -/
def front_loop (default_material : material_type) : slots → List sample → Option slots
  | st, [] => some st
  | st, sm :: rest =>
    match front_step default_material st sm with
    | none => none
    | some st' => front_loop default_material st' rest

/-- The statement `if (id2 == -1) { ... }` after the loop: only one nearby
object or material. -/
def slots_single (st : slots) : slots :=
  if st.id2 = -1 then
    { st with id2 := st.id1, o2 := st.o1, mat2 := st.mat1, shiftby2 := st.shiftby1 }
  else st

/-- The test after the loop that sends cells with a material function to the
fallback. -/
def slots_variable (default_material : material_type) (st : slots) : Bool :=
  (match st.o1 with
    | some o => variable_material o.material
    | none => false) ||
  (match st.o2 with
    | some o => variable_material o.material
    | none => false) ||
  (variable_material default_material &&
    (match st.o1, st.o2 with
      | some a, some b =>
        decide (a.material = .MATERIAL_TYPE_SELF) || decide (b.material = .MATERIAL_TYPE_SELF)
      | _, _ => true))

/-- The outputs of `get_front_object` when it returns `true`, with the
precedence of the front object. -/
structure front_result where
  pcenter : vector3
  o_front : Option geometric_object
  shiftby_front : vector3
  mat_front : material_type
  mat_behind : material_type
  id_front : Int
  deriving DecidableEq, Repr

/-- The two final `if` statements of `get_front_object`. -/
def slots_front (pcenter : vector3) (st : slots) : front_result :=
  if st.id2 > st.id1 then
    { pcenter := pcenter, o_front := st.o2, shiftby_front := st.shiftby2, mat_front := st.mat2,
      mat_behind := st.mat1, id_front := st.id2 }
  else
    { pcenter := pcenter, o_front := st.o1, shiftby_front := st.shiftby1, mat_front := st.mat1,
      mat_behind := if st.id1 = st.id2 then st.mat1 else st.mat2, id_front := st.id1 }

/-- The part of `get_front_object` from the loop on, given the samples of the
stencil points in order: `none` is `return false`. -/
def front_of_samples (default_material : material_type) (pcenter : vector3)
    (samples : List sample) : Option front_result :=
  match front_loop default_material slots_init samples with
  | none => none
  | some st =>
    let st := slots_single st
    if slots_variable default_material st then none
    else some (slots_front pcenter st)

/-- The samples of a cell: the answers of `object_of_point_in_tree` at the
stencil points. -/
def stencil_samples (ext : Library) (dimensions : Int) (gv : geometric_volume)
    (geometry_tree : geom_box_tree) : Option (List sample) :=
  (stencil_points dimensions gv).map
    (fun qs => qs.map (fun q => ext.object_of_point_in_tree q geometry_tree))

/-- The function `get_front_object`: `ok none` is `return false`, `ok (some r)`
is `return true` with outputs `r`, and `undefined` is a read outside the
tables `num_neighbors` and `neighbors`. -/
def get_front_object (ext : Library) (g : Globals) (gv : geometric_volume)
    (geometry_tree : geom_box_tree) : Result (Option front_result) :=
  match stencil_samples ext g.dimensions gv geometry_tree with
  | none => .undefined
  | some samples =>
    .ok (front_of_samples g.default_material (vec_to_vector3 gv.center) samples)

/-! ## Averages over a cell (`meaneps`, `fallback_meaneps`, `normal_vector`) -/

/-- The integrand `eps_func`, or `inveps_func` when `inverse` is set: the
point is `(x[0], x[1], x[2])` with the coordinates beyond `n` zero, `y` and `z`
swapped and the weight `s = p.x` in cylindrical coordinates. -/
def eps_func (ext : Library) (g : Globals) (s : geom_epsilon) (fuel : Nat) (inverse : Bool)
    (n : Nat) (x : Nat → ℚ) : Result ℚ := do
  let p : vector3 := ⟨x 0, if n > 1 then x 1 else 0, if n > 2 then x 2 else 0⟩
  let p' : vector3 := if g.dim = some .Dcyl then ⟨p.x, p.z, p.y⟩ else p
  let sc : ℚ := if g.dim = some .Dcyl then p.x else 1
  let r ← vector3_to_vec g.dim p'
  let e ← eps ext g s fuel r
  pure (if inverse then sc / e else e * sc)

/-- The arrays `xmin`, `xmax` of `fallback_meaneps`. -/
def fallback_bounds (g : Globals) (gv : geometric_volume) : List ℚ × List ℚ :=
  let gvmin := vec_to_vector3 gv.get_min_corner
  let gvmax := vec_to_vector3 gv.get_max_corner
  if g.dim = some .Dcyl then
    ([gvmin.x, gvmin.z, gvmin.y], [gvmax.x, gvmax.z, gvmax.y])
  else
    ([gvmin.x, gvmin.y, gvmin.z], [gvmax.x, gvmax.y, gvmax.z])

/-- The integration dimension `n` of `fallback_meaneps`. -/
def fallback_n (g : Globals) (gv : geometric_volume) : Nat :=
  let b := fallback_bounds g gv
  if b.1.getD 2 0 = b.2.getD 2 0 then
    (if b.1.getD 1 0 = b.2.getD 1 0 then 1 else 2)
  else 3

/-- The divisor `vol` of `fallback_meaneps`. -/
def fallback_vol (g : Globals) (gv : geometric_volume) : ℚ :=
  let b := fallback_bounds g gv
  let n := fallback_n g gv
  let vol := (List.range n).foldl (fun v i => v * (b.2.getD i 0 - b.1.getD i 0)) 1
  if g.dim = some .Dcyl then vol * ((b.1.getD 0 0 + b.2.getD 0 0) * (1 / 2)) else vol

/-- The method `geom_epsilon::fallback_meaneps` (the branch without
`CTL_HAS_COMPLEX_INTEGRATION`): the pair `(meps, minveps)`. -/
def fallback_meaneps (ext : Library) (g : Globals) (s : geom_epsilon) (fuel : Nat)
    (gv : geometric_volume) (tol : ℚ) (maxeval : Int) : Result (ℚ × ℚ) := do
  let b := fallback_bounds g gv
  let n := fallback_n g gv
  let vol := fallback_vol g gv
  let i1 ← ext.adaptive_integration (eps_func ext g s fuel false) b.1 b.2 n tol maxeval
  let i2 ← ext.adaptive_integration (eps_func ext g s fuel true) b.1 b.2 n tol maxeval
  pure (i1 / vol, i2 / vol)

/-- The method `geom_epsilon::meaneps`: the triple `(meps, minveps, n)`. -/
def meaneps (ext : Library) (g : Globals) (s : geom_epsilon) (fuel : Nat)
    (gv : geometric_volume) (tol : ℚ) (maxeval : Int) : Result (ℚ × ℚ × vec) := do
  let front ← get_front_object ext g gv s.geometry_tree
  match front with
  | none =>
    let m ← fallback_meaneps ext g s fuel gv tol maxeval
    pure (m.1, m.2, ext.normal_vector gv)
  | some r =>
    let m ← material_eps ext r.mat_front
    if material_type_equal r.mat_front r.mat_behind then
      pure (m.1, m.2, zero_vec gv.dim)
    else
      match r.o_front with
      | none => .undefined
      | some o =>
        let normal := ext.normal_to_fixed_object (vector3_minus r.pcenter r.shiftby_front) o
        let n ← vector3_to_vec g.dim (ext.unit_vector3 normal)
        let pixel := gv2box gv
        let pixel : geom_box :=
          ⟨vector3_minus pixel.low r.shiftby_front, vector3_minus pixel.high r.shiftby_front⟩
        let fill := 1 - ext.box_overlap_with_object pixel o tol maxeval
        let b ← material_eps ext r.mat_behind
        pure (m.1 + fill * (b.1 - m.1), m.2 + fill * (b.2 - m.2), n)

/-- The method `geom_epsilon::normal_vector`. -/
def normal_vector (ext : Library) (g : Globals) (s : geom_epsilon) (gv : geometric_volume) :
    Result vec := do
  let front ← get_front_object ext g gv s.geometry_tree
  match front with
  | none => pure (ext.normal_vector gv)
  | some r =>
    if material_type_equal r.mat_front r.mat_behind then pure (zero_vec gv.dim)
    else
      match r.o_front with
      | none => .undefined
      | some o =>
        let normal := ext.normal_to_fixed_object (vector3_minus r.pcenter r.shiftby_front) o
        vector3_to_vec g.dim (ext.unit_vector3 normal)

/-! ## Concrete inputs -/

/-- A dielectric object of permittivity 12. -/
def example_front : geometric_object := ⟨.DIELECTRIC ⟨12, 0, 0, []⟩, 1⟩

/-- A dielectric object of permittivity 4. -/
def example_back : geometric_object := ⟨.DIELECTRIC ⟨4, 0, 0, []⟩, 0⟩

/-- External functions for a plane with `example_front` (precedence 2) on the
side `x < 0` and `example_back` (precedence 1) on the side `x >= 0`; the
overlap routine answers one half. -/
def example_library : Library :=
  { create_geom_box_tree0 := fun _ _ => 1
    object_of_point_in_tree := fun q _ =>
      if q.x < 0 then ⟨some example_front, ⟨0, 0, 0⟩, 2⟩ else ⟨some example_back, ⟨0, 0, 0⟩, 1⟩
    material_of_unshifted_point_in_tree_inobject := fun q _ =>
      if q.x < 0 then example_front.material else example_back.material
    gh_call1 := fun _ _ => .MATERIAL_TYPE_SELF
    normal_to_fixed_object := fun _ _ => ⟨1, 0, 0⟩
    unit_vector3 := fun v => v
    box_overlap_with_object := fun _ _ _ _ => 1 / 2
    adaptive_integration := fun _ _ _ _ _ _ => .ok 0
    normal_vector := fun gv => zero_vec gv.dim
    infinity := 100000000000000000000 }

/-- Two dimensions, vacuum as default material. -/
def example_globals : Globals :=
  { dimensions := 2, dim := some .D2, default_material := .DIELECTRIC ⟨1, 0, 0, []⟩ }

/-- A facade on the two example objects, not restricted. -/
def example_facade : geom_epsilon :=
  { geometry := [example_back, example_front], geometry_tree := 0, restricted_tree := 0,
    omega := 0, gamma := 0, deps := 0, energy_sat := 0 }

/-- The two-dimensional cell `[xlo, xhi] x [-1, 1]`. -/
def example_cell (xlo xhi : ℚ) : geometric_volume :=
  { dim := .D2
    min_vals := fun d =>
      match d with
      | .X => xlo
      | .Y => -1
      | _ => 0
    max_vals := fun d =>
      match d with
      | .X => xhi
      | .Y => 1
      | _ => 0 }

/-- One step along a chain of material functions: the record that the
procedure of a `MATERIAL_FUNCTION` record returns at `p`; other records stay. -/
def material_func_next (ext : Library) (p : vector3) : material_type → material_type
  | .MATERIAL_FUNCTION f => ext.gh_call1 f p
  | m => m

/-- The record reached from `m` after `k` steps of the chain. -/
def material_chain (ext : Library) (p : vector3) (m : material_type) : Nat → material_type
  | 0 => m
  | k + 1 => material_chain ext p (material_func_next ext p m) k

/-- A library whose Scheme procedures all return a material function again:
procedure `f` returns the record of procedure `f` (a callback cycle). -/
def cycle_library : Library :=
  { example_library with gh_call1 := fun f _ => .MATERIAL_FUNCTION f }

/-- One dimension, vacuum as default material. -/
def line_globals : Globals :=
  { dimensions := 1, dim := some .D1, default_material := .DIELECTRIC ⟨1, 0, 0, []⟩ }

/-- The one-dimensional cell `0 <= z <= 1`. -/
def line_cell : geometric_volume :=
  { dim := .D1
    min_vals := fun _ => 0
    max_vals := fun d =>
      match d with
      | .Z => 1
      | _ => 0 }

/-- A third object, of the same material as `example_back`. -/
def example_top : geometric_object := ⟨.DIELECTRIC ⟨4, 0, 0, []⟩, 2⟩

/-- Three objects in the plane: `example_top` (precedence 3, permittivity 4) on
the quadrant `x > 0, y > 0`, `example_front` (precedence 2, permittivity 12) on
`x < 0`, and `example_back` (precedence 1, permittivity 4) elsewhere. -/
def three_library : Library :=
  { example_library with
    object_of_point_in_tree := fun q _ =>
      if 0 < q.x ∧ 0 < q.y then ⟨some example_top, ⟨0, 0, 0⟩, 3⟩
      else if q.x < 0 then ⟨some example_front, ⟨0, 0, 0⟩, 2⟩
      else ⟨some example_back, ⟨0, 0, 0⟩, 1⟩ }

/-- The material that the final assignment of `get_front_object` reports as
behind when both slots are filled: that of the slot of lower precedence. -/
def slots_behind (st : slots) : material_type :=
  if st.id1 ≤ st.id2 then st.mat1 else st.mat2

/-- What the loop of `get_front_object` keeps true of the samples `seen` so
far, all taken from `all`: slot 1 is filled as soon as a sample has been seen,
slot 2 only after slot 1, and each filled slot is a copy of a seen sample. -/
def front_inv (dm : material_type) (all seen : List sample) (st : slots) : Prop :=
  (∀ x ∈ seen, x ∈ all) ∧
  (seen ≠ [] → st.id1 ≠ -1) ∧
  (st.id1 ≠ -1 → ∃ x ∈ seen, x.id = st.id1 ∧ x.o = st.o1 ∧ x.shiftby = st.shiftby1 ∧
    sample_material dm x = st.mat1) ∧
  (st.id2 ≠ -1 → st.id1 ≠ -1 ∧ ∃ x ∈ seen, x.id = st.id2 ∧ x.o = st.o2 ∧
    x.shiftby = st.shiftby2 ∧ sample_material dm x = st.mat2)

/-- Every seen sample has the precedence of a slot at most, or the material
of the slot that would be reported as behind. -/
def front_inv_order (dm : material_type) (seen : List sample) (st : slots) : Prop :=
  ∀ x ∈ seen, x.id ≤ st.id1 ∨ x.id ≤ st.id2 ∨
    (st.id2 ≠ -1 ∧ sample_material dm x = slots_behind st)

/-- A default material that is itself `MATERIAL_TYPE_SELF`. -/
def self_globals : Globals :=
  { dimensions := 2, dim := some .D2, default_material := .MATERIAL_TYPE_SELF }

/-- A tree that answers every point with `MATERIAL_TYPE_SELF`. -/
def self_library : Library :=
  { example_library with
    material_of_unshifted_point_in_tree_inobject := fun _ _ => .MATERIAL_TYPE_SELF }

/-- The tuple `(omega, gamma, deps, energy_sat)` that `sigma` looks for. -/
def geom_epsilon.tuple (s : geom_epsilon) : pol :=
  ⟨s.omega, s.gamma, s.deps, s.energy_sat⟩

/-- The library `ext` with a tree that answers every point with the material
`m`. -/
def Library.with_material (ext : Library) (m : material_type) : Library :=
  { ext with material_of_unshifted_point_in_tree_inobject := fun _ _ => m }

/-- Slots after a sample of precedence 2 with the material of `example_front`
and a sample of precedence 1 with the material of `example_back`. -/
def ambiguous_slots : slots :=
  { o1 := some example_front, o2 := some example_back, shiftby1 := ⟨0, 0, 0⟩,
    shiftby2 := ⟨0, 0, 0⟩, mat1 := example_front.material, mat2 := example_back.material,
    id1 := 2, id2 := 1 }

/-- A third object, of the same material as `example_front`. -/
def example_cover : geometric_object := ⟨.DIELECTRIC ⟨12, 0, 0, []⟩, 3⟩

/-- A sample of precedence 3 whose material is that of slot 1 of
`ambiguous_slots`. -/
def ambiguous_sample : sample := ⟨some example_cover, ⟨0, 0, 0⟩, 3⟩

/-- An object whose material is a material function. -/
def dynamic_object : geometric_object := ⟨.MATERIAL_FUNCTION 0, 5⟩

/-- A tree in which `dynamic_object` (precedence 1) covers every point. -/
def dynamic_library : Library :=
  { example_library with
    object_of_point_in_tree := fun _ _ => ⟨some dynamic_object, ⟨0, 0, 0⟩, 1⟩
    material_of_unshifted_point_in_tree_inobject := fun _ _ => dynamic_object.material }

/-- The slots after the loop on the cell `[-1, 1] x [-1, 1]` of
`dynamic_library`. -/
def dynamic_slots : slots :=
  { slots_init with o1 := some dynamic_object, shiftby1 := ⟨0, 0, 0⟩, id1 := 1,
                    mat1 := .MATERIAL_FUNCTION 0 }

/-- The cast `meep::ndim(k)`: the enumerator of value `k`, `none` when `k` is
the value of no enumerator. -/
def ndim_of_int (k : Int) : Option ndim :=
  if k = 0 then some .D1
  else if k = 1 then some .D2
  else if k = 2 then some .D3
  else if k = 3 then some .Dcyl
  else none

/-- The function `set_dimensions`, on the globals `dimensions` and `dim`.
`CYLINDRICAL` is the libctl constant of that name, which `structure.cpp` uses
and does not define. -/
def set_dimensions (CYLINDRICAL : Int) (g : Globals) (dims : Int) : Globals :=
  if dims = CYLINDRICAL then { g with dimensions := 2, dim := some .Dcyl }
  else { g with dimensions := dims, dim := ndim_of_int (dims - 1) }

/-- Which of `vol1d`, `vol2d`, `vol3d`, `volcyl` builds the volume `v` of
`make_structure`. -/
inductive volume_kind where
  | vol1d | vol2d | vol3d | volcyl
  deriving DecidableEq, Repr

/-- The statement `switch (dims)` of `make_structure`.  The case labels of a
switch are distinct, so `CYLINDRICAL` is none of `0, 1, 2, 3` and the order of
the tests does not matter. -/
def make_structure_volume (CYLINDRICAL : Int) (dims : Int) : Result volume_kind :=
  if dims = 0 ∨ dims = 1 then .ok .vol1d
  else if dims = 2 then .ok .vol2d
  else if dims = 3 then .ok .vol3d
  else if dims = CYLINDRICAL then .ok .volcyl
  else .abort "unsupported dimensionality"

/-- The start of `make_structure`, from `set_dimensions(dims)` to
`v.shift_origin(vector3_to_vec(center))`: the globals, the kind of the volume
and the origin as a `vec`. -/
def make_structure_origin (CYLINDRICAL : Int) (g : Globals) (dims : Int) (center : vector3) :
    Result (Globals × volume_kind × vec) := do
  let g' := set_dimensions CYLINDRICAL g dims
  let v ← make_structure_volume CYLINDRICAL dims
  let c ← vector3_to_vec g'.dim center
  pure (g', v, c)

/-! ## Rounding of `double` arithmetic

Everywhere else a `double` is a rational number.  Where a statement depends on
rounding, the operations are rounded with `fl`: IEEE 754 binary64, round to
nearest, ties to even, for numbers in the normal range (neither overflow nor
subnormal numbers are represented). -/

/-- The nearest integer, ties to the even one. -/
def round_half_even (q : ℚ) : Int :=
  if q - (⌊q⌋ : ℚ) < 1 / 2 then ⌊q⌋
  else if 1 / 2 < q - (⌊q⌋ : ℚ) then ⌊q⌋ + 1
  else if ⌊q⌋ % 2 = 0 then ⌊q⌋ else ⌊q⌋ + 1

/-- The exponent `k` with `2^k <= |x| < 2^(k+1)`, for `x` other than 0. -/
def binade (x : ℚ) : Int := Int.log 2 |x|

/-- The binary64 number nearest to `x`: `x` rounded to a multiple of
`2^(binade x - 52)`, which leaves 53 significant bits. -/
def fl (x : ℚ) : ℚ :=
  if x = 0 then 0
  else (round_half_even (x / 2 ^ (binade x - 52)) : ℚ) * 2 ^ (binade x - 52)

/-- The blending statements of `meaneps` in binary64:
`double fill = 1.0 - box_overlap_with_object(...)` and
`meps += fill * (epsb - meps)`, every operation rounded. -/
def blend_double (meps epsb overlap : ℚ) : ℚ :=
  let fill := fl (1 - overlap)
  fl (meps + fl (fill * fl (epsb - meps)))

/-! ### Lemmas on the table -/

theorem pol_search_nil_iff (omega gamma deps esat : ℚ) (l : List pol) :
    pol_search omega gamma deps esat l = [] ↔ (⟨omega, gamma, deps, esat⟩ : pol) ∉ l := by
  induction l with
  | nil => simp [pol_search]
  | cons p next ih =>
    unfold pol_search
    by_cases h : p.omega = omega ∧ p.gamma = gamma ∧ p.deps = deps ∧ p.esat = esat
    · rw [if_pos h]
      obtain ⟨h1, h2, h3, h4⟩ := h
      have hp : p = ⟨omega, gamma, deps, esat⟩ := by
        cases p; simp_all
      simp [hp]
    · rw [if_neg h, ih]
      have hp : (⟨omega, gamma, deps, esat⟩ : pol) ≠ p := by
        intro e
        apply h
        subst e
        exact ⟨rfl, rfl, rfl, rfl⟩
      simp [hp]

theorem add_pol_eq (pols : List pol) (omega gamma deps esat : ℚ) :
    add_pol pols omega gamma deps esat =
      if (⟨omega, gamma, deps, esat⟩ : pol) ∈ pols then pols
      else ⟨omega, gamma, deps, esat⟩ :: pols := by
  unfold add_pol
  by_cases h : (⟨omega, gamma, deps, esat⟩ : pol) ∈ pols
  · rw [if_pos h]
    have hne : pol_search omega gamma deps esat pols ≠ [] := by
      rw [Ne, pol_search_nil_iff]
      exact not_not.mpr h
    cases hs : pol_search omega gamma deps esat pols with
    | nil => exact absurd hs hne
    | cons a b => rfl
  · rw [if_neg h, (pol_search_nil_iff omega gamma deps esat pols).mpr h]

theorem add_pol_nodup (pols : List pol) (omega gamma deps esat : ℚ) (h : pols.Nodup) :
    (add_pol pols omega gamma deps esat).Nodup := by
  rw [add_pol_eq]
  split
  · exact h
  · exact List.nodup_cons.mpr ⟨by assumption, h⟩

theorem mem_add_pol (pols : List pol) (omega gamma deps esat : ℚ) (t : pol) :
    t ∈ add_pol pols omega gamma deps esat ↔ t = ⟨omega, gamma, deps, esat⟩ ∨ t ∈ pols := by
  rw [add_pol_eq]
  split
  · constructor
    · intro h; exact Or.inr h
    · rintro (h | h)
      · subst h; assumption
      · exact h
  · simp

theorem add_pols_nodup (plist : List polarizability) (pols : List pol) (h : pols.Nodup) :
    (add_pols pols plist).Nodup := by
  induction plist generalizing pols with
  | nil => exact h
  | cons it rest ih =>
    exact ih _ (add_pol_nodup pols _ _ _ _ h)

theorem mem_add_pols (plist : List polarizability) (pols : List pol) (t : pol) :
    t ∈ add_pols pols plist ↔ t ∈ pols ∨ t ∈ plist.map polarizability.tuple := by
  induction plist generalizing pols with
  | nil => simp [add_pols]
  | cons it rest ih =>
    have hstep : add_pols pols (it :: rest) =
        add_pols (add_pol pols it.omega it.gamma it.delta_epsilon it.energy_saturation) rest := rfl
    rw [hstep, ih, mem_add_pol]
    simp only [List.map_cons, List.mem_cons, polarizability.tuple]
    tauto

theorem collect_object_pols_nodup (geometry : List geometric_object) (pols : List pol)
    (h : pols.Nodup) : (collect_object_pols pols geometry).Nodup := by
  induction geometry generalizing pols with
  | nil => exact h
  | cons o rest ih =>
    have hstep : collect_object_pols pols (o :: rest) =
        collect_object_pols
          (match o.material with
            | .DIELECTRIC d => add_pols pols d.polarizations
            | _ => pols) rest := rfl
    rw [hstep]
    apply ih
    cases o.material with
    | DIELECTRIC d => exact add_pols_nodup _ _ h
    | PERFECT_METAL => exact h
    | MATERIAL_FUNCTION f => exact h
    | MATERIAL_TYPE_SELF => exact h

theorem mem_collect_object_pols (geometry : List geometric_object) (pols : List pol) (t : pol) :
    t ∈ collect_object_pols pols geometry ↔
      t ∈ pols ∨ t ∈ geometry.flatMap (fun o => material_tuples o.material) := by
  induction geometry generalizing pols with
  | nil => simp [collect_object_pols]
  | cons o rest ih =>
    have hstep : collect_object_pols pols (o :: rest) =
        collect_object_pols
          (match o.material with
            | .DIELECTRIC d => add_pols pols d.polarizations
            | _ => pols) rest := rfl
    rw [hstep, ih]
    cases hm : o.material with
    | DIELECTRIC d =>
      simp only [mem_add_pols, List.flatMap_cons, List.mem_append, hm, material_tuples]
      tauto
    | PERFECT_METAL => simp [List.flatMap_cons, hm, material_tuples]
    | MATERIAL_FUNCTION f => simp [List.flatMap_cons, hm, material_tuples]
    | MATERIAL_TYPE_SELF => simp [List.flatMap_cons, hm, material_tuples]

/-! ### Lemmas on `Result` and on the loop of `get_front_object` -/

@[simp]
theorem Result.ok_bind {α β : Type} (a : α) (f : α → Result β) :
    (Result.ok a >>= f) = f a := rfl

@[simp]
theorem Result.pure_eq {α : Type} (a : α) : (pure a : Result α) = Result.ok a := rfl

theorem vector3_equal_iff (a b : vector3) : vector3_equal a b = true ↔ a = b := by
  cases a; cases b
  simp [vector3_equal, and_assoc]

theorem material_type_equal_iff (a b : material_type) : material_type_equal a b = true ↔ a = b := by
  simp [material_type_equal]

theorem stencil_points_cons (dimensions : Int) (gv : geometric_volume) (qs : List vector3)
    (h : stencil_points dimensions gv = some qs) : ∃ q rest, qs = q :: rest := by
  unfold stencil_points at h
  by_cases h0 : dimensions - 1 = 0
  · simp [h0, num_neighbors, neighbors] at h
    exact ⟨_, _, h.symm⟩
  · by_cases h1 : dimensions - 1 = 1
    · simp [h1, num_neighbors, neighbors] at h
      exact ⟨_, _, h.symm⟩
    · by_cases h2 : dimensions - 1 = 2
      · simp [h2, num_neighbors, neighbors] at h
        exact ⟨_, _, h.symm⟩
      · simp [h0, h1, h2, num_neighbors] at h

theorem material_func_loop_chain (ext : Library) (p : vector3) (k : Nat) :
    ∀ (fuel : Nat) (m : material_type) (calls : Nat),
      (∀ i < k, variable_material (material_chain ext p m i) = true) →
      variable_material (material_chain ext p m k) = false →
      material_func_loop ext p fuel m calls =
        if k ≤ fuel then .ok (material_chain ext p m k, calls + k) else .timeout := by
  induction k with
  | zero =>
    intro fuel m calls _ hend
    simp only [material_chain] at hend
    cases m with
    | MATERIAL_FUNCTION f => simp [variable_material] at hend
    | DIELECTRIC d => cases fuel <;> simp [material_func_loop, material_chain]
    | PERFECT_METAL => cases fuel <;> simp [material_func_loop, material_chain]
    | MATERIAL_TYPE_SELF => cases fuel <;> simp [material_func_loop, material_chain]
  | succ k ih =>
    intro fuel m calls hdyn hend
    have h0 := hdyn 0 (Nat.succ_pos k)
    simp only [material_chain] at h0
    cases m with
    | MATERIAL_FUNCTION f =>
      cases fuel with
      | zero => simp [material_func_loop]
      | succ fuel =>
        have hstep : material_func_loop ext p (fuel + 1) (.MATERIAL_FUNCTION f) calls =
            material_func_loop ext p fuel (ext.gh_call1 f p) (calls + 1) := by
          simp [material_func_loop]
        rw [hstep, ih fuel (ext.gh_call1 f p) (calls + 1)
          (fun i hi => by
            have := hdyn (i + 1) (Nat.succ_lt_succ hi)
            simpa [material_chain, material_func_next] using this)
          (by simpa [material_chain, material_func_next] using hend)]
        simp only [material_chain, material_func_next, Nat.add_le_add_iff_right]
        have e : calls + 1 + k = calls + (k + 1) := by omega
        rw [e]
    | DIELECTRIC d => simp [variable_material] at h0
    | PERFECT_METAL => simp [variable_material] at h0
    | MATERIAL_TYPE_SELF => simp [variable_material] at h0

theorem material_func_loop_cycle (p : vector3) (f : Nat) :
    ∀ (fuel calls : Nat),
      material_func_loop cycle_library p fuel (.MATERIAL_FUNCTION f) calls = .timeout := by
  intro fuel
  induction fuel with
  | zero => intro calls; simp [material_func_loop]
  | succ fuel ih =>
    intro calls
    have hstep : material_func_loop cycle_library p (fuel + 1) (.MATERIAL_FUNCTION f) calls =
        material_func_loop cycle_library p fuel (cycle_library.gh_call1 f p) (calls + 1) := by
      simp [material_func_loop]
    rw [hstep]
    exact ih (calls + 1)

/-! ### Invariants of the loop of `get_front_object` -/

/-- The four ways in which one iteration of the loop goes on: the sample
repeats a slot, fills slot 1, fills or replaces slot 2, or is passed over
because it agrees with the slot of lower precedence. -/
theorem front_step_cases (dm : material_type) (st st' : slots) (sm : sample)
    (h : front_step dm st sm = some st') :
    (((sm.id = st.id1 ∧ sm.shiftby = st.shiftby1) ∨
        (sm.id = st.id2 ∧ sm.shiftby = st.shiftby2)) ∧ st' = st) ∨
    (st.id1 = -1 ∧
      st' = { st with o1 := sm.o, shiftby1 := sm.shiftby, id1 := sm.id,
                      mat1 := sample_material dm sm }) ∨
    (st.id1 ≠ -1 ∧
      (st.id2 = -1 ∨ ((sm.id ≥ st.id1 ∧ sm.id ≥ st.id2) ∧
        (st.id1 = st.id2 ∨ st.mat1 = st.mat2))) ∧
      st' = { st with o2 := sm.o, shiftby2 := sm.shiftby, id2 := sm.id,
                      mat2 := sample_material dm sm }) ∨
    (st.id1 ≠ -1 ∧ st.id2 ≠ -1 ∧
      ((st.id1 < st.id2 ∧ (st.id1 = sm.id ∨ st.mat1 = sample_material dm sm)) ∨
        (st.id2 < st.id1 ∧ (st.id2 = sm.id ∨ st.mat2 = sample_material dm sm))) ∧
      st' = st) := by
  unfold front_step at h
  simp only [vector3_equal_iff, material_type_equal_iff] at h
  split at h
  · rename_i hdup
    left
    exact ⟨hdup, (Option.some.inj h).symm⟩
  · right
    split at h
    · rename_i h1
      left
      exact ⟨h1, (Option.some.inj h).symm⟩
    · rename_i h1
      right
      split at h
      · rename_i h2
        left
        exact ⟨h1, h2, (Option.some.inj h).symm⟩
      · rename_i h2
        right
        split at h
        · exact absurd h (by simp)
        · rename_i h3
          have hid2 : st.id2 ≠ -1 := fun e => h2 (Or.inl e)
          refine ⟨h1, hid2, ?_, (Option.some.inj h).symm⟩
          by_contra hc
          exact h3 ⟨fun a => hc (Or.inl a), fun b => hc (Or.inr b)⟩

/-- A property of the samples seen so far and the slots that every iteration
keeps is kept by the whole loop. -/
theorem front_loop_invariant (dm : material_type) (all : List sample)
    (I : List sample → slots → Prop)
    (hstep : ∀ (seen : List sample) (st st' : slots) (sm : sample), sm ∈ all → I seen st →
      front_step dm st sm = some st' → I (seen ++ [sm]) st') :
    ∀ (l seen : List sample) (st st' : slots), (∀ x ∈ l, x ∈ all) → I seen st →
      front_loop dm st l = some st' → I (seen ++ l) st' := by
  intro l
  induction l with
  | nil =>
    intro seen st st' _ hI h
    simp only [front_loop] at h
    rw [List.append_nil, ← Option.some.inj h]
    exact hI
  | cons sm rest ih =>
    intro seen st st' hall hI h
    unfold front_loop at h
    cases hs : front_step dm st sm with
    | none => rw [hs] at h; exact absurd h (by simp)
    | some st1 =>
      rw [hs] at h
      simp only at h
      have h1 := hstep seen st st1 sm (hall sm (List.mem_cons_self _ _)) hI hs
      have h2 := ih (seen ++ [sm]) st1 st' (fun x hx => hall x (List.mem_cons_of_mem _ hx)) h1 h
      simpa using h2

theorem front_inv_init (dm : material_type) (all : List sample) :
    front_inv dm all [] slots_init := by
  refine ⟨by simp, by simp, ?_, ?_⟩
  · intro h; exact absurd rfl h
  · intro h; exact absurd rfl h

theorem front_inv_step (dm : material_type) (all : List sample)
    (hid : ∀ s ∈ all, 0 ≤ s.id)
    (seen : List sample) (st st' : slots) (sm : sample) (hsm : sm ∈ all)
    (hI : front_inv dm all seen st) (h : front_step dm st sm = some st') :
    front_inv dm all (seen ++ [sm]) st' := by
  obtain ⟨hall, hne, h1, h2⟩ := hI
  have hsm0 : 0 ≤ sm.id := hid sm hsm
  have hall' : ∀ x ∈ seen ++ [sm], x ∈ all := by
    intro x hx
    rcases List.mem_append.mp hx with hx | hx
    · exact hall x hx
    · rw [List.mem_singleton.mp hx]; exact hsm
  have hmono : ∀ {P : sample → Prop}, (∃ x ∈ seen, P x) → ∃ x ∈ seen ++ [sm], P x := by
    rintro P ⟨x, hx, hp⟩
    exact ⟨x, List.mem_append_left _ hx, hp⟩
  have hlast : sm ∈ seen ++ [sm] := List.mem_append_right _ (List.mem_singleton_self sm)
  rcases front_step_cases dm st st' sm h with ⟨hdup, rfl⟩ | ⟨hid1, rfl⟩ | ⟨hid1, _, rfl⟩ |
    ⟨_, _, _, rfl⟩
  · refine ⟨hall', fun _ => ?_, fun a => hmono (h1 a), fun a => ⟨(h2 a).1, hmono (h2 a).2⟩⟩
    rcases hdup with ⟨e, _⟩ | ⟨e, _⟩
    · omega
    · exact (h2 (by omega)).1
  · have hid2 : st.id2 = -1 := by
      by_contra hc
      exact (h2 hc).1 hid1
    refine ⟨hall', fun _ => ?_, fun _ => ⟨sm, hlast, rfl, rfl, rfl, rfl⟩, fun a => ?_⟩
    · show sm.id ≠ -1
      omega
    · exact absurd hid2 a
  · refine ⟨hall', fun _ => hid1, fun a => hmono (h1 a),
      fun _ => ⟨hid1, sm, hlast, rfl, rfl, rfl, rfl⟩⟩
  · refine ⟨hall', fun hs => ?_, fun a => hmono (h1 a), fun a => ⟨(h2 a).1, hmono (h2 a).2⟩⟩
    assumption

theorem front_inv_order_step (dm : material_type) (all : List sample)
    (hid : ∀ s ∈ all, 0 ≤ s.id)
    (seen : List sample) (st st' : slots) (sm : sample) (hsm : sm ∈ all)
    (hI : front_inv dm all seen st) (hO : front_inv_order dm seen st)
    (h : front_step dm st sm = some st') :
    front_inv_order dm (seen ++ [sm]) st' := by
  obtain ⟨hall, hne, h1, h2⟩ := hI
  have hsm0 : 0 ≤ sm.id := hid sm hsm
  intro x hx
  rcases front_step_cases dm st st' sm h with ⟨hdup, rfl⟩ | ⟨hid1, rfl⟩ | ⟨hid1, hc, rfl⟩ |
    ⟨_, hid2, hc, rfl⟩
  · rcases List.mem_append.mp hx with hx | hx
    · exact hO x hx
    · rw [List.mem_singleton.mp hx]
      rcases hdup with ⟨e, _⟩ | ⟨e, _⟩
      · left; omega
      · right; left; omega
  · have hseen : seen = [] := by
      by_contra hc
      exact hne hc hid1
    subst hseen
    rw [List.nil_append, List.mem_singleton] at hx
    subst hx
    left
    exact le_refl _
  · rcases List.mem_append.mp hx with hx | hx
    · have hx0 : 0 ≤ x.id := hid x (hall x hx)
      rcases hO x hx with hx1 | hx2 | ⟨hx3, hx4⟩
      · left; exact hx1
      · right; left
        show x.id ≤ sm.id
        rcases hc with hc | ⟨⟨_, hc⟩, _⟩
        · omega
        · omega
      · rcases hc with hc | ⟨⟨hge1, _⟩, hc⟩
        · exact absurd hc hx3
        · right; right
          refine ⟨by show sm.id ≠ -1; omega, ?_⟩
          rw [hx4]
          unfold slots_behind
          have hnew : st.id1 ≤ sm.id := hge1
          simp only [hnew, if_true]
          rcases hc with hc | hc
          · rw [if_pos (le_of_eq hc)]
          · split
            · rfl
            · exact hc.symm
    · rw [List.mem_singleton.mp hx]
      right; left
      exact le_refl _
  · rcases List.mem_append.mp hx with hx | hx
    · exact hO x hx
    · rw [List.mem_singleton.mp hx]
      rcases hc with ⟨hlt, e | e⟩ | ⟨hlt, e | e⟩
      · left; omega
      · right; right
        refine ⟨hid2, ?_⟩
        unfold slots_behind
        rw [if_pos (le_of_lt hlt)]
        exact e.symm
      · right; left; omega
      · right; right
        refine ⟨hid2, ?_⟩
        unfold slots_behind
        rw [if_neg (by omega)]
        exact e.symm

/-- The two invariants at the end of the loop, started from the empty slots. -/
theorem front_loop_end (dm : material_type) (samples : List sample)
    (hid : ∀ s ∈ samples, 0 ≤ s.id) (st : slots)
    (h : front_loop dm slots_init samples = some st) :
    front_inv dm samples samples st ∧ front_inv_order dm samples st := by
  have := front_loop_invariant dm samples
    (fun seen st => front_inv dm samples seen st ∧ front_inv_order dm seen st)
    (fun seen st st' sm hsm hI hs =>
      ⟨front_inv_step dm samples hid seen st st' sm hsm hI.1 hs,
       front_inv_order_step dm samples hid seen st st' sm hsm hI.1 hI.2 hs⟩)
    samples [] slots_init st (fun x hx => hx)
    ⟨front_inv_init dm samples, fun x hx => absurd hx (List.not_mem_nil x)⟩ h
  simpa using this

/-- What a successful `front_of_samples` was computed from. -/
theorem front_of_samples_some (dm : material_type) (pc : vector3) (samples : List sample)
    (r : front_result) (h : front_of_samples dm pc samples = some r) :
    ∃ st, front_loop dm slots_init samples = some st ∧ r = slots_front pc (slots_single st) := by
  unfold front_of_samples at h
  cases hl : front_loop dm slots_init samples with
  | none => rw [hl] at h; exact absurd h (by simp)
  | some st =>
    rw [hl] at h
    simp only at h
    split at h
    · exact absurd h (by simp)
    · exact ⟨st, rfl, (Option.some.inj h).symm⟩

theorem front_of_samples_order (dm : material_type) (pc : vector3) (samples : List sample)
    (r : front_result) (hid : ∀ s ∈ samples, 0 ≤ s.id) (hne : samples ≠ [])
    (h : front_of_samples dm pc samples = some r) :
    ∃ sf ∈ samples, r.o_front = sf.o ∧ r.shiftby_front = sf.shiftby ∧
      r.mat_front = sample_material dm sf ∧ r.id_front = sf.id ∧
      ∀ s ∈ samples, s.id ≤ sf.id ∨ sample_material dm s = r.mat_behind := by
  obtain ⟨st, hl, rfl⟩ := front_of_samples_some dm pc samples r h
  obtain ⟨⟨_, hne1, h1, h2⟩, hO⟩ := front_loop_end dm samples hid st hl
  have hid1 : st.id1 ≠ -1 := hne1 hne
  obtain ⟨x1, hx1, e1, eo1, es1, em1⟩ := h1 hid1
  have hx10 : 0 ≤ x1.id := hid x1 hx1
  by_cases hid2 : st.id2 = -1
  · refine ⟨x1, hx1, ?_⟩
    simp only [slots_single, hid2, if_true, slots_front, gt_iff_lt, lt_self_iff_false, if_false]
    refine ⟨eo1.symm, es1.symm, em1.symm, e1.symm, fun s hs => ?_⟩
    have hs0 : 0 ≤ s.id := hid s hs
    rcases hO s hs with a | a | ⟨a, _⟩
    · left; omega
    · omega
    · exact absurd hid2 a
  · obtain ⟨_, x2, hx2, e2, eo2, es2, em2⟩ := h2 hid2
    simp only [slots_single, hid2, if_false, slots_front]
    by_cases hgt : st.id2 > st.id1
    · refine ⟨x2, hx2, ?_⟩
      simp only [hgt, if_true]
      refine ⟨eo2.symm, es2.symm, em2.symm, e2.symm, fun s hs => ?_⟩
      rcases hO s hs with a | a | ⟨_, a⟩
      · left; omega
      · left; omega
      · right
        rw [a]
        unfold slots_behind
        rw [if_pos (by omega)]
    · refine ⟨x1, hx1, ?_⟩
      simp only [hgt, if_false]
      refine ⟨eo1.symm, es1.symm, em1.symm, e1.symm, fun s hs => ?_⟩
      rcases hO s hs with a | a | ⟨_, a⟩
      · left; omega
      · left; omega
      · right
        rw [a]
        unfold slots_behind
        by_cases he : st.id1 = st.id2
        · rw [if_pos (le_of_eq he), if_pos he]
        · rw [if_neg (by omega), if_neg he]

theorem stencil_samples_ne_nil (ext : Library) (dimensions : Int) (gv : geometric_volume)
    (tree : geom_box_tree) (samples : List sample)
    (hs : stencil_samples ext dimensions gv tree = some samples) : samples ≠ [] := by
  unfold stencil_samples at hs
  cases hq : stencil_points dimensions gv with
  | none => rw [hq] at hs; exact absurd hs (by simp)
  | some qs =>
    rw [hq] at hs
    obtain ⟨q, rest, rfl⟩ := stencil_points_cons dimensions gv qs hq
    simp only [Option.map_some', List.map_cons] at hs
    rw [← Option.some.inj hs]
    simp

theorem get_front_object_some (ext : Library) (g : Globals) (gv : geometric_volume)
    (tree : geom_box_tree) (samples : List sample) (res : Option front_result)
    (hs : stencil_samples ext g.dimensions gv tree = some samples)
    (h : get_front_object ext g gv tree = .ok res) :
    front_of_samples g.default_material (vec_to_vector3 gv.center) samples = res := by
  unfold get_front_object at h
  rw [hs] at h
  simp only at h
  exact Result.ok.inj h

/-! ### Point queries -/

theorem material_func_loop_congr (ext ext' : Library) (p : vector3)
    (h : ext'.gh_call1 = ext.gh_call1) :
    ∀ (fuel : Nat) (m : material_type) (calls : Nat),
      material_func_loop ext' p fuel m calls = material_func_loop ext p fuel m calls := by
  intro fuel
  induction fuel with
  | zero =>
    intro m calls
    cases m <;> simp [material_func_loop]
  | succ fuel ih =>
    intro m calls
    cases m with
    | MATERIAL_FUNCTION f =>
      simp only [material_func_loop]
      rw [h]
      exact ih _ _
    | DIELECTRIC d => simp [material_func_loop]
    | PERFECT_METAL => simp [material_func_loop]
    | MATERIAL_TYPE_SELF => simp [material_func_loop]

theorem eval_material_func_congr (ext ext' : Library) (g : Globals) (fuel f : Nat) (p : vector3)
    (h : ext'.gh_call1 = ext.gh_call1) :
    eval_material_func ext' g fuel f p = eval_material_func ext g fuel f p := by
  unfold eval_material_func eval_material_func_calls
  rw [material_func_loop_congr ext ext' p h, h]

/-- The material of a point when the tree answers with a material that is
neither `MATERIAL_TYPE_SELF` nor a material function. -/
theorem point_material_fixed (ext : Library) (g : Globals) (s : geom_epsilon) (fuel : Nat)
    (p : vector3) (m : material_type)
    (hm : ext.material_of_unshifted_point_in_tree_inobject p s.restricted_tree = m)
    (hself : m ≠ .MATERIAL_TYPE_SELF) (hvar : variable_material m = false) :
    point_material ext g s fuel p = .ok m := by
  unfold point_material
  rw [hm]
  cases m with
  | DIELECTRIC d => rfl
  | PERFECT_METAL => rfl
  | MATERIAL_FUNCTION f => simp [variable_material] at hvar
  | MATERIAL_TYPE_SELF => exact absurd rfl hself

/-! ### The end of `get_front_object` -/

theorem variable_material_iff (m : material_type) :
    variable_material m = true ↔ ∃ f, m = .MATERIAL_FUNCTION f := by
  cases m <;> simp [variable_material]

/-- The test for material functions after the loop, spelled out. -/
theorem slots_variable_iff (dm : material_type) (st : slots) :
    slots_variable dm st = true ↔
      ((∃ o f, st.o1 = some o ∧ o.material = .MATERIAL_FUNCTION f) ∨
       (∃ o f, st.o2 = some o ∧ o.material = .MATERIAL_FUNCTION f) ∨
       ((∃ f, dm = .MATERIAL_FUNCTION f) ∧
        (st.o1 = none ∨ st.o2 = none ∨
         (∃ o, st.o1 = some o ∧ o.material = .MATERIAL_TYPE_SELF) ∨
         (∃ o, st.o2 = some o ∧ o.material = .MATERIAL_TYPE_SELF)))) := by
  unfold slots_variable
  cases h1 : st.o1 with
  | none =>
    cases h2 : st.o2 with
    | none => simp [variable_material_iff]
    | some b => simp [variable_material_iff]
  | some a =>
    cases h2 : st.o2 with
    | none => simp [variable_material_iff]
    | some b => simp [variable_material_iff, or_assoc]

theorem stencil_samples_loop (ext : Library) (g : Globals) (gv : geometric_volume)
    (tree : geom_box_tree) (samples : List sample) (st : slots)
    (hs : stencil_samples ext g.dimensions gv tree = some samples)
    (hloop : front_loop g.default_material slots_init samples = some st) :
    get_front_object ext g gv tree =
      .ok (if slots_variable g.default_material (slots_single st) = true then none
           else some (slots_front (vec_to_vector3 gv.center) (slots_single st))) := by
  unfold get_front_object front_of_samples
  rw [hs]
  simp only [hloop]

/-! ### The fallback in cylindrical coordinates, and the susceptibilities -/

theorem has_chi3_false (g : Globals) (s : geom_epsilon) (h : has_chi3 g s = false) :
    (∀ o ∈ s.geometry, ∀ d, o.material = .DIELECTRIC d → d.chi3 = 0) ∧
    (∀ d, g.default_material = .DIELECTRIC d → d.chi3 = 0) := by
  unfold has_chi3 at h
  split at h
  · exact absurd h (by simp)
  · rename_i hany
    constructor
    · intro o ho d hd
      by_contra hc
      apply hany
      rw [List.any_eq_true]
      exact ⟨o, ho, by rw [hd]; simpa using hc⟩
    · intro d hd
      rw [hd] at h
      simpa using h

theorem has_chi2_false (g : Globals) (s : geom_epsilon) (h : has_chi2 g s = false) :
    (∀ o ∈ s.geometry, ∀ d, o.material = .DIELECTRIC d → d.chi2 = 0) ∧
    (∀ d, g.default_material = .DIELECTRIC d → d.chi2 = 0) := by
  unfold has_chi2 at h
  split at h
  · exact absurd h (by simp)
  · rename_i hany
    constructor
    · intro o ho d hd
      by_contra hc
      apply hany
      rw [List.any_eq_true]
      exact ⟨o, ho, by rw [hd]; simpa using hc⟩
    · intro d hd
      rw [hd] at h
      simpa using h

/-- Without material functions the material of a point is the answer of the
tree, or the default material when the answer is `MATERIAL_TYPE_SELF`. -/
theorem point_material_static (ext : Library) (g : Globals) (s : geom_epsilon) (fuel : Nat)
    (p : vector3)
    (hobj : ∀ o ∈ s.geometry, variable_material o.material = false)
    (hdef : variable_material g.default_material = false)
    (hidx : ext.material_of_unshifted_point_in_tree_inobject p s.restricted_tree =
        g.default_material ∨
      ∃ o ∈ s.geometry,
        ext.material_of_unshifted_point_in_tree_inobject p s.restricted_tree = o.material) :
    ∃ m, point_material ext g s fuel p = .ok m ∧
      (m = g.default_material ∨ ∃ o ∈ s.geometry, m = o.material) := by
  have hcase : ∀ m : material_type, variable_material m = false →
      (m = g.default_material ∨ ∃ o ∈ s.geometry, m = o.material) →
      ext.material_of_unshifted_point_in_tree_inobject p s.restricted_tree = m →
      ∃ m', point_material ext g s fuel p = .ok m' ∧
        (m' = g.default_material ∨ ∃ o ∈ s.geometry, m' = o.material) := by
    intro m hv hin hm
    unfold point_material
    rw [hm]
    cases m with
    | DIELECTRIC d => exact ⟨_, rfl, hin⟩
    | PERFECT_METAL => exact ⟨_, rfl, hin⟩
    | MATERIAL_FUNCTION f => simp [variable_material] at hv
    | MATERIAL_TYPE_SELF =>
      simp only
      cases hd : g.default_material with
      | DIELECTRIC d => exact ⟨_, rfl, Or.inl rfl⟩
      | PERFECT_METAL => exact ⟨_, rfl, Or.inl rfl⟩
      | MATERIAL_FUNCTION f => rw [hd] at hdef; simp [variable_material] at hdef
      | MATERIAL_TYPE_SELF => exact ⟨_, rfl, Or.inl rfl⟩
  rcases hidx with h | ⟨o, ho, h⟩
  · exact hcase _ hdef (Or.inl rfl) h
  · exact hcase _ (hobj o ho) (Or.inr ⟨o, ho, rfl⟩) h

/-! ### Evaluating binary64 rounding -/

theorem binade_eq (x : ℚ) (k : Int) (h1 : (2 : ℚ) ^ k ≤ |x|) (h2 : |x| < (2 : ℚ) ^ (k + 1)) :
    binade x = k := by
  have hpos : 0 < |x| := lt_of_lt_of_le (zpow_pos (by norm_num) k) h1
  have ha : k ≤ Int.log 2 |x| :=
    (Int.zpow_le_iff_le_log (by norm_num) hpos).mp (by exact_mod_cast h1)
  have hb : Int.log 2 |x| < k + 1 :=
    (Int.lt_zpow_iff_log_lt (by norm_num) hpos).mp (by exact_mod_cast h2)
  unfold binade
  omega

theorem round_half_even_int (n : Int) : round_half_even (n : ℚ) = n := by
  unfold round_half_even
  rw [Int.floor_intCast]
  simp

theorem round_half_even_near (q : ℚ) (n : Int) (h1 : (n : ℚ) - 1 / 2 < q)
    (h2 : q < (n : ℚ) + 1 / 2) : round_half_even q = n := by
  unfold round_half_even
  by_cases hq : (n : ℚ) ≤ q
  · have hf : ⌊q⌋ = n := by
      rw [Int.floor_eq_iff]
      exact ⟨hq, by linarith⟩
    rw [hf, if_pos (by linarith)]
  · have hf : ⌊q⌋ = n - 1 := by
      rw [Int.floor_eq_iff]
      push_cast
      exact ⟨by linarith, by linarith⟩
    rw [hf]
    push_cast
    rw [if_neg (by linarith), if_pos (by linarith)]
    ring

theorem round_half_even_tie (q : ℚ) (f : Int) (hq : q = (f : ℚ) + 1 / 2) (hf : f % 2 = 0) :
    round_half_even q = f := by
  unfold round_half_even
  have hfl : ⌊q⌋ = f := by
    rw [Int.floor_eq_iff]
    exact ⟨by linarith, by linarith⟩
  rw [hfl, if_neg (by linarith), if_neg (by linarith), if_pos hf]

theorem fl_eq (x : ℚ) (k m : Int) (hx : x ≠ 0) (hk : binade x = k)
    (hm : round_half_even (x / 2 ^ (k - 52)) = m) :
    fl x = (m : ℚ) * 2 ^ (k - 52) := by
  unfold fl
  rw [if_neg hx, hk, hm]

theorem fl_one : fl 1 = 1 := by
  rw [fl_eq 1 0 4503599627370496 (by norm_num) (binade_eq 1 0 (by norm_num) (by norm_num))
    (by
      have h : (1 : ℚ) / 2 ^ ((0 : Int) - 52) = ((4503599627370496 : Int) : ℚ) := by norm_num
      rw [h, round_half_even_int])]
  norm_num

theorem fl_877 : fl (877 / 100) = 2468535545752453 / 281474976710656 := by
  rw [fl_eq (877 / 100) 3 4937071091504906 (by norm_num)
    (binade_eq _ 3 (by norm_num [abs_of_pos]) (by norm_num [abs_of_pos]))
    (round_half_even_near _ _ (by norm_num) (by norm_num))]
  norm_num

theorem fl_302 : fl (302 / 100) = 6800435437329449 / 2251799813685248 := by
  rw [fl_eq (302 / 100) 1 6800435437329449 (by norm_num)
    (binade_eq _ 1 (by norm_num [abs_of_pos]) (by norm_num [abs_of_pos]))
    (round_half_even_near _ _ (by norm_num) (by norm_num))]
  norm_num

theorem fl_difference :
    fl (6800435437329449 / 2251799813685248 - 2468535545752453 / 281474976710656) = -23 / 4 := by
  rw [fl_eq _ 2 (-6473924464345088) (by norm_num)
    (binade_eq _ 2 (by norm_num [abs_of_neg]) (by norm_num [abs_of_neg]))
    (round_half_even_tie _ _ (by norm_num) (by decide))]
  norm_num

theorem fl_product : fl (1 * (-23 / 4)) = -23 / 4 := by
  rw [fl_eq _ 2 (-6473924464345088) (by norm_num)
    (binade_eq _ 2 (by norm_num [abs_of_neg]) (by norm_num [abs_of_neg]))
    (by
      have h : (1 * (-23 / 4) : ℚ) / 2 ^ ((2 : Int) - 52) =
          ((-6473924464345088 : Int) : ℚ) := by norm_num
      rw [h, round_half_even_int])]
  norm_num

theorem fl_sum :
    fl (2468535545752453 / 281474976710656 + -23 / 4) = 850054429666181 / 281474976710656 := by
  rw [fl_eq _ 1 6800435437329448 (by norm_num)
    (binade_eq _ 1 (by norm_num [abs_of_pos]) (by norm_num [abs_of_pos]))
    (by
      have h : (2468535545752453 / 281474976710656 + -23 / 4 : ℚ) / 2 ^ ((1 : Int) - 52) =
          ((6800435437329448 : Int) : ℚ) := by norm_num
      rw [h, round_half_even_int])]
  norm_num

/-! ### A sample of higher precedence than both slots -/

/-- What one iteration of the loop of `get_front_object` does with a sample
whose precedence is strictly higher than that of both filled slots. -/
theorem front_step_higher (dm : material_type) (st : slots) (sm : sample)
    (h1 : st.id1 ≠ -1) (h2 : st.id2 ≠ -1) (hgt1 : st.id1 < sm.id) (hgt2 : st.id2 < sm.id) :
    front_step dm st sm =
      if st.id1 = st.id2 ∨ st.mat1 = st.mat2 then
        some { st with o2 := sm.o, shiftby2 := sm.shiftby, id2 := sm.id,
                       mat2 := sample_material dm sm }
      else if sample_material dm sm = slots_behind st then some st
      else none := by
  have hdup : ¬ ((sm.id = st.id1 ∧ vector3_equal sm.shiftby st.shiftby1 = true) ∨
      (sm.id = st.id2 ∧ vector3_equal sm.shiftby st.shiftby2 = true)) := by
    rintro (⟨e, _⟩ | ⟨e, _⟩) <;> omega
  unfold front_step
  rw [if_neg hdup]
  simp only [if_neg h1, material_type_equal_iff]
  by_cases hrep : st.id1 = st.id2 ∨ st.mat1 = st.mat2
  · rw [if_pos (Or.inr ⟨⟨le_of_lt hgt1, le_of_lt hgt2⟩, hrep⟩), if_pos hrep]
  · have hrep' : ¬ (st.id2 = -1 ∨ ((sm.id ≥ st.id1 ∧ sm.id ≥ st.id2) ∧
        (st.id1 = st.id2 ∨ st.mat1 = st.mat2))) := by
      rintro (e | ⟨_, e⟩)
      · exact h2 e
      · exact hrep e
    rw [if_neg hrep', if_neg hrep]
    have hne : st.id1 ≠ st.id2 := fun e => hrep (Or.inl e)
    unfold slots_behind
    rcases lt_or_gt_of_ne hne with hlt | hlt
    · have hle : st.id1 ≤ st.id2 := le_of_lt hlt
      rw [if_pos hle]
      by_cases hm : sample_material dm sm = st.mat1
      · rw [if_pos hm, if_neg]
        rintro ⟨hA, _⟩
        exact hA ⟨hlt, Or.inr hm.symm⟩
      · rw [if_neg hm, if_pos]
        refine ⟨?_, fun hB => by omega⟩
        rintro ⟨_, e | e⟩
        · omega
        · exact hm e.symm
    · have hnle : ¬ st.id1 ≤ st.id2 := by omega
      rw [if_neg hnle]
      by_cases hm : sample_material dm sm = st.mat2
      · rw [if_pos hm, if_neg]
        rintro ⟨_, hB⟩
        exact hB ⟨hlt, Or.inr hm.symm⟩
      · rw [if_neg hm, if_pos]
        refine ⟨fun hA => by omega, ?_⟩
        rintro ⟨_, e | e⟩
        · omega
        · exact hm e.symm

/-! ## Theorems -/

/-- C1: `add_polarizabilities` registers every distinct
`(omega, gamma, delta_epsilon, energy_saturation)` tuple exactly once: for every
object list and default material the sequence of registered tuples has no
duplicates, and a tuple is registered if and only if it occurs in the
polarization list of a `DIELECTRIC` object material or of a `DIELECTRIC`
default material.  On the example geometry (three objects sharing one tuple,
one object with another) exactly two registrations are made. -/
theorem C1_add_polarizabilities_unique :
    (∀ (geometry : List geometric_object) (default_material : material_type),
      (add_polarizabilities geometry default_material).Nodup ∧
      ∀ t : pol, t ∈ add_polarizabilities geometry default_material ↔
        t ∈ geometry_tuples geometry default_material) ∧
    add_polarizabilities example_geometry .PERFECT_METAL =
      [⟨2, 2/10, 1, 0⟩, ⟨1, 1/10, 2, 0⟩] := by
  refine ⟨fun geometry default_material => ⟨?_, fun t => ?_⟩, ?_⟩
  · unfold add_polarizabilities unique_pols
    have h0 := collect_object_pols_nodup geometry [] List.nodup_nil
    cases default_material with
    | DIELECTRIC d => exact add_pols_nodup _ _ h0
    | PERFECT_METAL => exact h0
    | MATERIAL_FUNCTION f => exact h0
    | MATERIAL_TYPE_SELF => exact h0
  · unfold add_polarizabilities unique_pols geometry_tuples
    cases default_material with
    | DIELECTRIC d =>
      simp only [mem_add_pols, mem_collect_object_pols, List.mem_append, material_tuples]
      simp
    | PERFECT_METAL => simp [mem_collect_object_pols, material_tuples]
    | MATERIAL_FUNCTION f => simp [mem_collect_object_pols, material_tuples]
    | MATERIAL_TYPE_SELF => simp [mem_collect_object_pols, material_tuples]
  · norm_num [add_polarizabilities, unique_pols, collect_object_pols, example_geometry, add_pols,
      add_pol, pol_search]

/-- C7: `has_chi3()` is true if and only if some object whose material is a
`DIELECTRIC` has `chi3 != 0` or the default material is a `DIELECTRIC` with
`chi3 != 0` (so materials of the other three kinds never make it true, and it
is false when every `chi3` is zero); the same holds for `has_chi2()` and
`chi2`. -/
theorem C7_has_chi_iff :
    (∀ (g : Globals) (s : geom_epsilon),
      has_chi3 g s = true ↔
        ((∃ o ∈ s.geometry, ∃ d, o.material = .DIELECTRIC d ∧ d.chi3 ≠ 0) ∨
          ∃ d, g.default_material = .DIELECTRIC d ∧ d.chi3 ≠ 0)) ∧
    (∀ (g : Globals) (s : geom_epsilon),
      has_chi2 g s = true ↔
        ((∃ o ∈ s.geometry, ∃ d, o.material = .DIELECTRIC d ∧ d.chi2 ≠ 0) ∨
          ∃ d, g.default_material = .DIELECTRIC d ∧ d.chi2 ≠ 0)) := by
  constructor
  · intro g s
    unfold has_chi3
    have hany : (s.geometry.any (fun o =>
          match o.material with
          | .DIELECTRIC d => decide (d.chi3 ≠ 0)
          | _ => false) = true) ↔
        ∃ o ∈ s.geometry, ∃ d, o.material = .DIELECTRIC d ∧ d.chi3 ≠ 0 := by
      rw [List.any_eq_true]
      constructor
      · rintro ⟨o, ho, h⟩
        refine ⟨o, ho, ?_⟩
        cases hm : o.material with
        | DIELECTRIC d => rw [hm] at h; exact ⟨d, rfl, by simpa using h⟩
        | PERFECT_METAL => rw [hm] at h; simp at h
        | MATERIAL_FUNCTION f => rw [hm] at h; simp at h
        | MATERIAL_TYPE_SELF => rw [hm] at h; simp at h
      · rintro ⟨o, ho, d, hm, hd⟩
        refine ⟨o, ho, ?_⟩
        rw [hm]
        simpa using hd
    have hdef : ((match g.default_material with
          | .DIELECTRIC d => decide (d.chi3 ≠ 0)
          | _ => false) = true) ↔
        ∃ d, g.default_material = .DIELECTRIC d ∧ d.chi3 ≠ 0 := by
      cases g.default_material with
      | DIELECTRIC d => simp
      | PERFECT_METAL => simp
      | MATERIAL_FUNCTION f => simp
      | MATERIAL_TYPE_SELF => simp
    rw [← hany, ← hdef]
    generalize (s.geometry.any _) = A
    generalize (match g.default_material with
      | .DIELECTRIC d => _
      | _ => false) = M
    cases A <;> cases M <;> simp
  · intro g s
    unfold has_chi2
    have hany : (s.geometry.any (fun o =>
          match o.material with
          | .DIELECTRIC d => decide (d.chi2 ≠ 0)
          | _ => false) = true) ↔
        ∃ o ∈ s.geometry, ∃ d, o.material = .DIELECTRIC d ∧ d.chi2 ≠ 0 := by
      rw [List.any_eq_true]
      constructor
      · rintro ⟨o, ho, h⟩
        refine ⟨o, ho, ?_⟩
        cases hm : o.material with
        | DIELECTRIC d => rw [hm] at h; exact ⟨d, rfl, by simpa using h⟩
        | PERFECT_METAL => rw [hm] at h; simp at h
        | MATERIAL_FUNCTION f => rw [hm] at h; simp at h
        | MATERIAL_TYPE_SELF => rw [hm] at h; simp at h
      · rintro ⟨o, ho, d, hm, hd⟩
        refine ⟨o, ho, ?_⟩
        rw [hm]
        simpa using hd
    have hdef : ((match g.default_material with
          | .DIELECTRIC d => decide (d.chi2 ≠ 0)
          | _ => false) = true) ↔
        ∃ d, g.default_material = .DIELECTRIC d ∧ d.chi2 ≠ 0 := by
      cases g.default_material with
      | DIELECTRIC d => simp
      | PERFECT_METAL => simp
      | MATERIAL_FUNCTION f => simp
      | MATERIAL_TYPE_SELF => simp
    rw [← hany, ← hdef]
    generalize (s.geometry.any _) = A
    generalize (match g.default_material with
      | .DIELECTRIC d => _
      | _ => false) = M
    cases A <;> cases M <;> simp

/-- C8: restriction round trip.  From a state with `restricted_tree =
geometry_tree`, `set_volume(region)` followed by `unset_volume()` gives back the
same state: the same `geometry_tree`, `restricted_tree = geometry_tree`, and
`eps`, `chi2`, `chi3`, `sigma` return at every point what they returned before.
`unset_volume` is idempotent and `set_volume` does not change
`geometry_tree`. -/
theorem C8_restriction_round_trip (ext : Library) (g : Globals) (s : geom_epsilon)
    (region : geometric_volume) (h : s.restricted_tree = s.geometry_tree) :
    (unset_volume (set_volume ext s region)).geometry_tree = s.geometry_tree ∧
    (unset_volume (set_volume ext s region)).restricted_tree = s.geometry_tree ∧
    (∀ (fuel : Nat) (r : vec),
      eps ext g (unset_volume (set_volume ext s region)) fuel r = eps ext g s fuel r ∧
      chi2 ext g (unset_volume (set_volume ext s region)) fuel r = chi2 ext g s fuel r ∧
      chi3 ext g (unset_volume (set_volume ext s region)) fuel r = chi3 ext g s fuel r ∧
      sigma ext g (unset_volume (set_volume ext s region)) fuel r = sigma ext g s fuel r) ∧
    (∀ t : geom_epsilon, unset_volume (unset_volume t) = unset_volume t) ∧
    (∀ (t : geom_epsilon) (gv : geometric_volume),
      (set_volume ext t gv).geometry_tree = t.geometry_tree) := by
  have hround : unset_volume (set_volume ext s region) = s := by
    cases s with
    | mk geometry gt rt om ga de es =>
      simp only at h
      subst h
      unfold set_volume unset_volume
      simp only [ne_eq, not_true_eq_false, if_false]
      split
      · rfl
      · rename_i hc
        rw [not_not.mp hc]
  have hidem : ∀ t : geom_epsilon, unset_volume (unset_volume t) = unset_volume t := by
    intro t
    unfold unset_volume
    by_cases ht : t.restricted_tree = t.geometry_tree
    · simp [ht]
    · simp [ht]
  have hset : ∀ (t : geom_epsilon) (gv : geometric_volume),
      (set_volume ext t gv).geometry_tree = t.geometry_tree := by
    intro t gv
    unfold set_volume unset_volume
    by_cases ht : t.restricted_tree = t.geometry_tree
    · simp [ht]
    · simp [ht]
  rw [hround]
  exact ⟨rfl, h, fun _ _ => ⟨rfl, rfl, rfl, rfl⟩, hidem, hset⟩

/-- C3: boundary-cell blending.  When `get_front_object` succeeds with a front
object `o`, a dielectric front material `a` and a different dielectric behind
material `b`, and `f` is what `box_overlap_with_object` returns for the cell
moved back by the shift of the front object, `meaneps` returns
`meps = a.epsilon * f + b.epsilon * (1 - f)` and
`minveps = (1 / a.epsilon) * f + (1 / b.epsilon) * (1 - f)`, exactly. -/
theorem C3_boundary_blending (ext : Library) (g : Globals) (s : geom_epsilon) (fuel : Nat)
    (gv : geometric_volume) (tol : ℚ) (maxeval : Int) (r : front_result)
    (o : geometric_object) (a b : dielectric) (di : ndim) (f : ℚ)
    (hfront : get_front_object ext g gv s.geometry_tree = .ok (some r))
    (ho : r.o_front = some o)
    (ha : r.mat_front = .DIELECTRIC a) (hb : r.mat_behind = .DIELECTRIC b) (hab : a ≠ b)
    (hdim : g.dim = some di)
    (hf : ext.box_overlap_with_object
        ⟨vector3_minus (gv2box gv).low r.shiftby_front,
         vector3_minus (gv2box gv).high r.shiftby_front⟩ o tol maxeval = f) :
    ∃ n : vec, meaneps ext g s fuel gv tol maxeval =
      .ok (a.epsilon * f + b.epsilon * (1 - f),
           (1 / a.epsilon) * f + (1 / b.epsilon) * (1 - f), n) := by
  have hne : material_type_equal (.DIELECTRIC a) (.DIELECTRIC b) = false := by
    simp [material_type_equal, hab]
  obtain ⟨n, hn⟩ : ∃ n, vector3_to_vec g.dim (ext.unit_vector3
      (ext.normal_to_fixed_object (vector3_minus r.pcenter r.shiftby_front) o)) = .ok n := by
    rw [hdim]
    cases di <;> exact ⟨_, rfl⟩
  refine ⟨n, ?_⟩
  unfold meaneps
  rw [hfront]
  simp only [Result.ok_bind, ho, hn, hf, ha, hb, hne, material_eps, Result.pure_eq,
    Bool.false_eq_true, if_false]
  congr 2
  · ring
  · congr 1
    ring

/-- C4, in exact arithmetic: blending bounds.  On the blending path of
`meaneps` (front object `o`, dielectric front material `a`, different
dielectric behind material `b`), when the overlap fraction `f` returned by
`box_overlap_with_object` satisfies `0 <= f <= 1`, the `meps` that the blending
statements give over the rationals lies between `a.epsilon` and `b.epsilon`
inclusive and the `minveps` lies between `1 / a.epsilon` and `1 / b.epsilon`
inclusive. -/
theorem C4_blending_bounds (ext : Library) (g : Globals) (s : geom_epsilon) (fuel : Nat)
    (gv : geometric_volume) (tol : ℚ) (maxeval : Int) (r : front_result)
    (o : geometric_object) (a b : dielectric) (di : ndim) (f : ℚ)
    (hfront : get_front_object ext g gv s.geometry_tree = .ok (some r))
    (ho : r.o_front = some o)
    (ha : r.mat_front = .DIELECTRIC a) (hb : r.mat_behind = .DIELECTRIC b) (hab : a ≠ b)
    (hdim : g.dim = some di)
    (hf : ext.box_overlap_with_object
        ⟨vector3_minus (gv2box gv).low r.shiftby_front,
         vector3_minus (gv2box gv).high r.shiftby_front⟩ o tol maxeval = f)
    (hf0 : 0 ≤ f) (hf1 : f ≤ 1) :
    ∃ (meps minveps : ℚ) (n : vec),
      meaneps ext g s fuel gv tol maxeval = .ok (meps, minveps, n) ∧
      min a.epsilon b.epsilon ≤ meps ∧ meps ≤ max a.epsilon b.epsilon ∧
      min (1 / a.epsilon) (1 / b.epsilon) ≤ minveps ∧
      minveps ≤ max (1 / a.epsilon) (1 / b.epsilon) := by
  have hne : material_type_equal (.DIELECTRIC a) (.DIELECTRIC b) = false := by
    simp [material_type_equal, hab]
  obtain ⟨n, hn⟩ : ∃ n, vector3_to_vec g.dim (ext.unit_vector3
      (ext.normal_to_fixed_object (vector3_minus r.pcenter r.shiftby_front) o)) = .ok n := by
    rw [hdim]
    cases di <;> exact ⟨_, rfl⟩
  have hmean : meaneps ext g s fuel gv tol maxeval =
      .ok (a.epsilon + (1 - f) * (b.epsilon - a.epsilon),
           1 / a.epsilon + (1 - f) * (1 / b.epsilon - 1 / a.epsilon), n) := by
    unfold meaneps
    rw [hfront]
    simp only [Result.ok_bind, ho, hn, hf, ha, hb, hne, material_eps, Result.pure_eq,
      Bool.false_eq_true, if_false]
  have hconv : ∀ x y : ℚ, min x y ≤ x + (1 - f) * (y - x) ∧ x + (1 - f) * (y - x) ≤ max x y := by
    intro x y
    have h1 : 0 ≤ 1 - f := by linarith
    rcases le_total x y with hxy | hxy
    · rw [min_eq_left hxy, max_eq_right hxy]
      constructor
      · nlinarith [mul_nonneg h1 (sub_nonneg.mpr hxy)]
      · nlinarith [mul_nonneg hf0 (sub_nonneg.mpr hxy)]
    · rw [min_eq_right hxy, max_eq_left hxy]
      constructor
      · nlinarith [mul_nonneg hf0 (sub_nonneg.mpr hxy)]
      · nlinarith [mul_nonneg h1 (sub_nonneg.mpr hxy)]
  exact ⟨_, _, n, hmean, (hconv _ _).1, (hconv _ _).2, (hconv _ _).1, (hconv _ _).2⟩

theorem example_stencil_boundary :
    stencil_points example_globals.dimensions (example_cell (-1) 1) =
      some [⟨0, 0, 0⟩, ⟨-1, -1, 0⟩, ⟨1, 1, 0⟩, ⟨-1, 1, 0⟩, ⟨1, -1, 0⟩] := by
  norm_num [stencil_points, example_globals, example_cell, num_neighbors, neighbors, gv2box,
    vec_to_vector3, geometric_volume.center, geometric_volume.get_min_corner,
    geometric_volume.get_max_corner, mk_vec]

theorem example_front_boundary :
    get_front_object example_library example_globals (example_cell (-1) 1)
        example_facade.geometry_tree =
      .ok (some { pcenter := ⟨0, 0, 0⟩, o_front := some example_front,
                  shiftby_front := ⟨0, 0, 0⟩, mat_front := .DIELECTRIC ⟨12, 0, 0, []⟩,
                  mat_behind := .DIELECTRIC ⟨4, 0, 0, []⟩, id_front := 2 }) := by
  unfold get_front_object stencil_samples
  rw [example_stencil_boundary]
  norm_num [example_library, front_of_samples, front_loop, front_step, slots_init, example_globals,
    vector3_equal, sample_material, material_type_equal, slots_single, slots_variable, slots_front,
    variable_material, example_front, example_back, example_cell, vec_to_vector3,
    geometric_volume.center, mk_vec]

/-- Witness of C3: the cell `[-1, 1] x [-1, 1]` straddles the plane `x = 0`. -/
theorem C3_boundary_blending_witness :
    ∃ n : vec,
      meaneps example_library example_globals example_facade 0 (example_cell (-1) 1) (1 / 100) 0 =
        .ok (12 * (1 / 2) + 4 * (1 - 1 / 2), (1 / 12) * (1 / 2) + (1 / 4) * (1 - 1 / 2), n) :=
  C3_boundary_blending example_library example_globals example_facade 0 (example_cell (-1) 1)
    (1 / 100) 0 _ example_front ⟨12, 0, 0, []⟩ ⟨4, 0, 0, []⟩ .D2 (1 / 2)
    example_front_boundary rfl rfl rfl (by simp) rfl rfl

/-- Witness of C4: the same cell, with the overlap fraction one half. -/
theorem C4_blending_bounds_witness :
    ∃ (meps minveps : ℚ) (n : vec),
      meaneps example_library example_globals example_facade 0 (example_cell (-1) 1) (1 / 100) 0 =
        .ok (meps, minveps, n) ∧
      min (12 : ℚ) 4 ≤ meps ∧ meps ≤ max (12 : ℚ) 4 ∧
      min (1 / 12 : ℚ) (1 / 4) ≤ minveps ∧ minveps ≤ max (1 / 12 : ℚ) (1 / 4) :=
  C4_blending_bounds example_library example_globals example_facade 0 (example_cell (-1) 1)
    (1 / 100) 0 _ example_front ⟨12, 0, 0, []⟩ ⟨4, 0, 0, []⟩ .D2 (1 / 2)
    example_front_boundary rfl rfl rfl (by simp) rfl rfl (by norm_num) (by norm_num)

/-- Witness of C8: restricting the example facade to a cell and releasing it. -/
theorem C8_restriction_round_trip_witness :
    (unset_volume (set_volume example_library example_facade (example_cell 0 1))).restricted_tree =
      example_facade.geometry_tree :=
  (C8_restriction_round_trip example_library example_globals example_facade (example_cell 0 1)
    rfl).2.1

/-- C9, as the code has it: `eval_material_func` calls the evaluator once and
then once more for every `MATERIAL_FUNCTION` record that comes back, with no
bound on the number of calls.  If the first record of the chain that is not a
`MATERIAL_FUNCTION` comes after `k` further calls, the loop needs `k`
iterations (fewer do not finish it) and the function then ends after `k + 1`
calls: it returns that record, the default material in place of
`MATERIAL_TYPE_SELF`, and fails with "infinite loop in material functions"
exactly when that default material is itself a `MATERIAL_FUNCTION`. -/
theorem C9_eval_material_func_chain (ext : Library) (g : Globals) (f : Nat) (p : vector3)
    (k fuel : Nat)
    (hdyn : ∀ i < k, variable_material (material_chain ext p (ext.gh_call1 f p) i) = true)
    (hend : variable_material (material_chain ext p (ext.gh_call1 f p) k) = false) :
    (fuel < k → eval_material_func_calls ext g fuel f p = .timeout) ∧
    (k ≤ fuel → eval_material_func_calls ext g fuel f p =
      match (match material_chain ext p (ext.gh_call1 f p) k with
              | .MATERIAL_TYPE_SELF => g.default_material
              | m => m) with
      | .MATERIAL_FUNCTION _ => .abort "infinite loop in material functions"
      | m => .ok (m, k + 1)) := by
  have hloop := material_func_loop_chain ext p k fuel (ext.gh_call1 f p) 1 hdyn hend
  constructor
  · intro hlt
    unfold eval_material_func_calls
    rw [hloop, if_neg (Nat.not_le.mpr hlt)]
  · intro hle
    unfold eval_material_func_calls
    rw [hloop, if_pos hle]
    simp only [Nat.add_comm 1 k]

/-- Witness of C9: a procedure that returns procedure 1, which returns a
perfect metal: two calls. -/
theorem C9_eval_material_func_chain_witness :
    eval_material_func_calls
        { example_library with
          gh_call1 := fun f _ => if f = 0 then .MATERIAL_FUNCTION 1 else .PERFECT_METAL }
        example_globals 5 0 ⟨0, 0, 0⟩ = .ok (.PERFECT_METAL, 2) :=
  (C9_eval_material_func_chain
    { example_library with
      gh_call1 := fun f _ => if f = 0 then .MATERIAL_FUNCTION 1 else .PERFECT_METAL }
    example_globals 0 ⟨0, 0, 0⟩ 1 5
    (by
      intro i hi
      have hi0 : i = 0 := by omega
      subst hi0
      simp [material_chain, variable_material])
    (by simp [material_chain, material_func_next, variable_material])).2 (by decide)

/-- Counterexample to C9 as stated: on a callback cycle `eval_material_func`
neither returns nor fails with the configuration error, however many
iterations the loop is given. -/
theorem C9_callback_cycle_no_end :
    ¬ ∃ fuel : Nat, ∃ r : Result (material_type × Nat),
        eval_material_func_calls cycle_library example_globals fuel 0 ⟨0, 0, 0⟩ = r ∧
        (r ≠ .timeout) := by
  rintro ⟨fuel, r, hr, hne⟩
  apply hne
  rw [← hr]
  unfold eval_material_func_calls
  have hcall : cycle_library.gh_call1 0 ⟨0, 0, 0⟩ = .MATERIAL_FUNCTION 0 := rfl
  rw [hcall, material_func_loop_cycle]

/-- C10, at the failing input: for the one-dimensional cell `0 <= z <= 1`
`fallback_meaneps` integrates over the box `[0,0] x [0,0] x [0,1]` in dimension
`n = 3`, not `1`, and divides by the volume `0`. -/
theorem C10_fallback_one_dimension :
    fallback_bounds line_globals line_cell = ([0, 0, 0], [0, 0, 1]) ∧
    fallback_n line_globals line_cell = 3 ∧
    fallback_vol line_globals line_cell = 0 := by
  have hb : fallback_bounds line_globals line_cell = ([0, 0, 0], [0, 0, 1]) := by
    simp [fallback_bounds, line_globals, line_cell, vec_to_vector3,
      geometric_volume.get_min_corner, geometric_volume.get_max_corner, mk_vec]
  have hn : fallback_n line_globals line_cell = 3 := by
    unfold fallback_n
    rw [hb]
    simp
  refine ⟨hb, hn, ?_⟩
  unfold fallback_vol
  rw [hb, hn]
  simp [line_globals, List.range_succ]

/-- C5, as the code has it: when `get_front_object` succeeds on stencil samples
of non-negative precedence, the object it reports as front is one of the
samples (object, shift and material), and every stencil sample has a
precedence not greater than that sample's or a material equal to the reported
behind material.  In the loop, a sample of strictly higher precedence than both
filled slots replaces slot 2 when the two slots have equal precedence or equal
materials; otherwise it is passed over when its material equals that of the
slot of lower precedence, and makes `get_front_object` return false when it
does not. -/
theorem C5_front_identity (ext : Library) (g : Globals) (gv : geometric_volume)
    (tree : geom_box_tree) (samples : List sample) (r : front_result)
    (hs : stencil_samples ext g.dimensions gv tree = some samples)
    (hid : ∀ s ∈ samples, 0 ≤ s.id)
    (h : get_front_object ext g gv tree = .ok (some r)) :
    (∃ sf ∈ samples, r.o_front = sf.o ∧ r.shiftby_front = sf.shiftby ∧
      r.mat_front = sample_material g.default_material sf ∧ r.id_front = sf.id ∧
      ∀ s ∈ samples, s.id ≤ sf.id ∨ sample_material g.default_material s = r.mat_behind) ∧
    (∀ (st : slots) (sm : sample), st.id1 ≠ -1 → st.id2 ≠ -1 → st.id1 < sm.id →
      st.id2 < sm.id →
      front_step g.default_material st sm =
        if st.id1 = st.id2 ∨ st.mat1 = st.mat2 then
          some { st with o2 := sm.o, shiftby2 := sm.shiftby, id2 := sm.id,
                         mat2 := sample_material g.default_material sm }
        else if sample_material g.default_material sm = slots_behind st then some st
        else none) :=
  ⟨front_of_samples_order g.default_material (vec_to_vector3 gv.center) samples r hid
      (stencil_samples_ne_nil ext g.dimensions gv tree samples hs)
      (get_front_object_some ext g gv tree samples (some r) hs h),
   fun st sm h1 h2 hgt1 hgt2 => front_step_higher g.default_material st sm h1 h2 hgt1 hgt2⟩

theorem example_samples_boundary :
    stencil_samples example_library example_globals.dimensions (example_cell (-1) 1)
        example_facade.geometry_tree =
      some [⟨some example_back, ⟨0, 0, 0⟩, 1⟩, ⟨some example_front, ⟨0, 0, 0⟩, 2⟩,
            ⟨some example_back, ⟨0, 0, 0⟩, 1⟩, ⟨some example_front, ⟨0, 0, 0⟩, 2⟩,
            ⟨some example_back, ⟨0, 0, 0⟩, 1⟩] := by
  unfold stencil_samples
  rw [example_stencil_boundary]
  norm_num [example_library]

theorem three_samples :
    stencil_samples three_library example_globals.dimensions (example_cell (-1) 1)
        example_facade.geometry_tree =
      some [⟨some example_back, ⟨0, 0, 0⟩, 1⟩, ⟨some example_front, ⟨0, 0, 0⟩, 2⟩,
            ⟨some example_top, ⟨0, 0, 0⟩, 3⟩, ⟨some example_front, ⟨0, 0, 0⟩, 2⟩,
            ⟨some example_back, ⟨0, 0, 0⟩, 1⟩] := by
  unfold stencil_samples
  rw [example_stencil_boundary]
  norm_num [three_library, example_library]

theorem three_front :
    get_front_object three_library example_globals (example_cell (-1) 1)
        example_facade.geometry_tree =
      .ok (some { pcenter := ⟨0, 0, 0⟩, o_front := some example_front,
                  shiftby_front := ⟨0, 0, 0⟩, mat_front := .DIELECTRIC ⟨12, 0, 0, []⟩,
                  mat_behind := .DIELECTRIC ⟨4, 0, 0, []⟩, id_front := 2 }) := by
  unfold get_front_object
  rw [three_samples]
  norm_num [front_of_samples, front_loop, front_step, slots_init, example_globals,
    vector3_equal, sample_material, material_type_equal, slots_single, slots_variable, slots_front,
    variable_material, example_front, example_back, example_top, example_cell, vec_to_vector3,
    geometric_volume.center, mk_vec]

/-- Counterexample to C5 as stated: on the cell `[-1, 1] x [-1, 1]` of
`three_library` the stencil has a sample of precedence 3 (`example_top`, at the
corner `(1, 1)`), and `get_front_object` succeeds and reports `example_front`,
of precedence 2, as the front object. -/
theorem C5_higher_identity_passed_over :
    ∃ (samples : List sample) (r : front_result),
      stencil_samples three_library example_globals.dimensions (example_cell (-1) 1)
        example_facade.geometry_tree = some samples ∧
      get_front_object three_library example_globals (example_cell (-1) 1)
        example_facade.geometry_tree = .ok (some r) ∧
      r.o_front = some example_front ∧ r.id_front = 2 ∧
      (⟨some example_top, ⟨0, 0, 0⟩, 3⟩ : sample) ∈ samples ∧
      ¬ (∀ s ∈ samples, s.id ≤ r.id_front) := by
  refine ⟨_, _, three_samples, three_front, rfl, rfl, by simp, ?_⟩
  intro hall
  have := hall ⟨some example_top, ⟨0, 0, 0⟩, 3⟩ (by simp)
  simp at this

/-- Witness of C5: the three objects of `three_library`. -/
theorem C5_front_identity_witness :
    ∃ sf ∈ [(⟨some example_back, ⟨0, 0, 0⟩, 1⟩ : sample), ⟨some example_front, ⟨0, 0, 0⟩, 2⟩,
            ⟨some example_top, ⟨0, 0, 0⟩, 3⟩, ⟨some example_front, ⟨0, 0, 0⟩, 2⟩,
            ⟨some example_back, ⟨0, 0, 0⟩, 1⟩],
      some example_front = sf.o ∧ (⟨0, 0, 0⟩ : vector3) = sf.shiftby ∧
      material_type.DIELECTRIC ⟨12, 0, 0, []⟩ =
        sample_material example_globals.default_material sf ∧
      (2 : Int) = sf.id ∧
      ∀ s ∈ [(⟨some example_back, ⟨0, 0, 0⟩, 1⟩ : sample), ⟨some example_front, ⟨0, 0, 0⟩, 2⟩,
            ⟨some example_top, ⟨0, 0, 0⟩, 3⟩, ⟨some example_front, ⟨0, 0, 0⟩, 2⟩,
            ⟨some example_back, ⟨0, 0, 0⟩, 1⟩],
        s.id ≤ sf.id ∨
        sample_material example_globals.default_material s = .DIELECTRIC ⟨4, 0, 0, []⟩ :=
  (C5_front_identity three_library example_globals (example_cell (-1) 1)
    example_facade.geometry_tree _ _ three_samples (by simp) three_front).1

/-- C12: point permittivity.  `eps(p)` is the `epsilon` member of the material
that the tree answers for `p` when that material is a dielectric, and
`-meep::infinity` when it is a perfect metal, for which `material_eps` gives the
inverse zero (its sign is not represented); when the tree answers
`MATERIAL_TYPE_SELF`, `eps(p)` is what it is for a tree that answers the default
material.  For a dielectric `material_eps` returns `eps_inv = 1 / eps`. -/
theorem C12_point_permittivity (ext : Library) (g : Globals) (s : geom_epsilon) (fuel : Nat)
    (r : vec) :
    (∀ d : dielectric,
      ext.material_of_unshifted_point_in_tree_inobject (vec_to_vector3 r) s.restricted_tree =
        .DIELECTRIC d → eps ext g s fuel r = .ok d.epsilon) ∧
    (ext.material_of_unshifted_point_in_tree_inobject (vec_to_vector3 r) s.restricted_tree =
        .PERFECT_METAL → eps ext g s fuel r = .ok (-ext.infinity)) ∧
    material_eps ext .PERFECT_METAL = .ok (-ext.infinity, 0) ∧
    (ext.material_of_unshifted_point_in_tree_inobject (vec_to_vector3 r) s.restricted_tree =
        .MATERIAL_TYPE_SELF →
      eps ext g s fuel r = eps (ext.with_material g.default_material) g s fuel r) ∧
    (∀ d : dielectric, material_eps ext (.DIELECTRIC d) = .ok (d.epsilon, 1 / d.epsilon)) := by
  refine ⟨?_, ?_, rfl, ?_, fun d => rfl⟩
  · intro d hd
    unfold eps
    simp only [point_material_fixed ext g s fuel _ _ hd (by simp) rfl, Result.ok_bind,
      material_eps, Result.pure_eq]
  · intro hp
    unfold eps
    simp only [point_material_fixed ext g s fuel _ _ hp (by simp) rfl, Result.ok_bind,
      material_eps, Result.pure_eq]
  · intro hself
    have hpm : point_material ext g s fuel (vec_to_vector3 r) =
        point_material (ext.with_material g.default_material) g s fuel (vec_to_vector3 r) := by
      unfold point_material
      rw [hself]
      simp only [Library.with_material]
      cases hdm : g.default_material with
      | DIELECTRIC d => rfl
      | PERFECT_METAL => rfl
      | MATERIAL_TYPE_SELF => simp only [hdm]
      | MATERIAL_FUNCTION f =>
        simp only
        symm
        apply eval_material_func_congr
        rfl
    unfold eps
    simp only [hpm]
    rfl

/-- C13, as the code has it: at a point whose material, after the default
material has taken the place of `MATERIAL_TYPE_SELF` and a material function
has been evaluated, is neither a dielectric nor a perfect metal, `eps` aborts
with "unknown material type", while `chi2`, `chi3` and `sigma` return `0`. -/
theorem C13_unsupported_kind (ext : Library) (g : Globals) (s : geom_epsilon) (fuel : Nat)
    (r : vec) (m : material_type)
    (hm : point_material ext g s fuel (vec_to_vector3 r) = .ok m)
    (hd : ∀ d : dielectric, m ≠ .DIELECTRIC d) (hp : m ≠ .PERFECT_METAL) :
    eps ext g s fuel r = .abort "unknown material type" ∧
    chi2 ext g s fuel r = .ok 0 ∧ chi3 ext g s fuel r = .ok 0 ∧
    sigma ext g s fuel r = .ok 0 := by
  unfold eps chi2 chi3 sigma
  simp only [hm, Result.ok_bind]
  cases m with
  | DIELECTRIC d => exact absurd rfl (hd d)
  | PERFECT_METAL => exact absurd rfl hp
  | MATERIAL_FUNCTION f => exact ⟨rfl, rfl, rfl, rfl⟩
  | MATERIAL_TYPE_SELF => exact ⟨rfl, rfl, rfl, rfl⟩

/-- Witness of C13: the default material is `MATERIAL_TYPE_SELF` and so is the
answer of the tree. -/
theorem C13_unsupported_kind_witness :
    eps self_library self_globals example_facade 0 (.d2 0 0) = .abort "unknown material type" ∧
    chi2 self_library self_globals example_facade 0 (.d2 0 0) = .ok 0 ∧
    chi3 self_library self_globals example_facade 0 (.d2 0 0) = .ok 0 ∧
    sigma self_library self_globals example_facade 0 (.d2 0 0) = .ok 0 :=
  C13_unsupported_kind self_library self_globals example_facade 0 (.d2 0 0) .MATERIAL_TYPE_SELF
    rfl (by simp) (by simp)

/-- Counterexample to C13 as stated: with a default material that is itself
`MATERIAL_TYPE_SELF`, the material of the point is neither a dielectric nor a
perfect metal, and `chi3`, `chi2` and `sigma` return the value `0`. -/
theorem C13_chi_sigma_return :
    point_material self_library self_globals example_facade 0 (vec_to_vector3 (.d2 0 0)) =
      .ok .MATERIAL_TYPE_SELF ∧
    chi3 self_library self_globals example_facade 0 (.d2 0 0) = .ok 0 ∧
    chi2 self_library self_globals example_facade 0 (.d2 0 0) = .ok 0 ∧
    sigma self_library self_globals example_facade 0 (.d2 0 0) = .ok 0 :=
  ⟨rfl, rfl, rfl, rfl⟩

/-- C14, at the failing inputs: in one dimension (`dimensions = 1`) the three
points that `get_front_object` queries are all the centre of the cell, since
`vec_to_vector3` puts the coordinate in `z` and row 0 of `neighbors` offsets
along `x`, where the cell has no width; in cylindrical coordinates
(`dimensions = 2`) the four points besides the centre are offset along `r` only
and keep the `z` of the centre, so none of them is an `r`-`z` corner. -/
theorem C14_stencil_degenerate :
    (∀ mn mx : direction → ℚ,
      stencil_points 1 ⟨.D1, mn, mx⟩ =
        some [⟨0, 0, (mn .Z + mx .Z) * (1 / 2)⟩, ⟨0, 0, (mn .Z + mx .Z) * (1 / 2)⟩,
              ⟨0, 0, (mn .Z + mx .Z) * (1 / 2)⟩]) ∧
    (∀ mn mx : direction → ℚ,
      stencil_points 2 ⟨.Dcyl, mn, mx⟩ =
        some [⟨(mn .R + mx .R) * (1 / 2), 0, (mn .Z + mx .Z) * (1 / 2)⟩,
              ⟨(mn .R + mx .R) * (1 / 2) - (mx .R - mn .R) * (1 / 2), 0,
                (mn .Z + mx .Z) * (1 / 2)⟩,
              ⟨(mn .R + mx .R) * (1 / 2) + (mx .R - mn .R) * (1 / 2), 0,
                (mn .Z + mx .Z) * (1 / 2)⟩,
              ⟨(mn .R + mx .R) * (1 / 2) - (mx .R - mn .R) * (1 / 2), 0,
                (mn .Z + mx .Z) * (1 / 2)⟩,
              ⟨(mn .R + mx .R) * (1 / 2) + (mx .R - mn .R) * (1 / 2), 0,
                (mn .Z + mx .Z) * (1 / 2)⟩]) ∧
    stencil_points line_globals.dimensions line_cell =
      some [⟨0, 0, 1 / 2⟩, ⟨0, 0, 1 / 2⟩, ⟨0, 0, 1 / 2⟩] := by
  refine ⟨?_, ?_, ?_⟩
  · intro mn mx
    simp [stencil_points, num_neighbors, neighbors, gv2box, vec_to_vector3,
      geometric_volume.center, geometric_volume.get_min_corner,
      geometric_volume.get_max_corner, mk_vec]
  · intro mn mx
    simp [stencil_points, num_neighbors, neighbors, gv2box, vec_to_vector3,
      geometric_volume.center, geometric_volume.get_min_corner,
      geometric_volume.get_max_corner, mk_vec]
    ring
  · norm_num [stencil_points, line_globals, line_cell, num_neighbors, neighbors, gv2box,
      vec_to_vector3, geometric_volume.center, geometric_volume.get_min_corner,
      geometric_volume.get_max_corner, mk_vec]

/-- C15, as the code has it: a sample that is no exact (identity, shift)
duplicate of a slot, arrives when both slots are filled and does not satisfy the
condition for replacing slot 2 makes `get_front_object` return false if and only
if the two slots have equal identities, or the sample differs in both identity
and material from the slot of lower identity.  Agreement with the slot of
higher identity does not prevent the abort. -/
theorem C15_ambiguity_rule (dm : material_type) (st : slots) (sm : sample)
    (hdup : ¬ ((sm.id = st.id1 ∧ sm.shiftby = st.shiftby1) ∨
      (sm.id = st.id2 ∧ sm.shiftby = st.shiftby2)))
    (h1 : st.id1 ≠ -1) (h2 : st.id2 ≠ -1)
    (hrep : ¬ ((sm.id ≥ st.id1 ∧ sm.id ≥ st.id2) ∧
      (st.id1 = st.id2 ∨ material_type_equal st.mat1 st.mat2 = true))) :
    front_step dm st sm = none ↔
      (st.id1 = st.id2 ∨
       (st.id1 < st.id2 ∧ sm.id ≠ st.id1 ∧
         material_type_equal st.mat1 (sample_material dm sm) = false) ∨
       (st.id2 < st.id1 ∧ sm.id ≠ st.id2 ∧
         material_type_equal st.mat2 (sample_material dm sm) = false)) := by
  have hdup' : ¬ ((sm.id = st.id1 ∧ vector3_equal sm.shiftby st.shiftby1 = true) ∨
      (sm.id = st.id2 ∧ vector3_equal sm.shiftby st.shiftby2 = true)) := by
    simpa only [vector3_equal_iff] using hdup
  have hrep' : ¬ (st.id2 = -1 ∨ ((sm.id ≥ st.id1 ∧ sm.id ≥ st.id2) ∧
      (st.id1 = st.id2 ∨ material_type_equal st.mat1 st.mat2 = true))) := by
    rintro (h | h)
    · exact h2 h
    · exact hrep h
  unfold front_step
  rw [if_neg hdup']
  simp only [if_neg h1, if_neg hrep']
  have hb1 : material_type_equal st.mat1 (sample_material dm sm) = false ↔
      ¬ material_type_equal st.mat1 (sample_material dm sm) = true := by simp
  have hb2 : material_type_equal st.mat2 (sample_material dm sm) = false ↔
      ¬ material_type_equal st.mat2 (sample_material dm sm) = true := by simp
  rw [hb1, hb2]
  constructor
  · intro h
    split at h
    · rename_i hc
      obtain ⟨hA, hB⟩ := hc
      rcases lt_trichotomy st.id1 st.id2 with hlt | heq | hgt
      · right; left
        refine ⟨hlt, fun e => hA ⟨hlt, Or.inl e.symm⟩, fun e => hA ⟨hlt, Or.inr e⟩⟩
      · left; exact heq
      · right; right
        refine ⟨hgt, fun e => hB ⟨hgt, Or.inl e.symm⟩, fun e => hB ⟨hgt, Or.inr e⟩⟩
    · exact absurd h (by simp)
  · intro h
    rw [if_pos]
    rcases h with heq | ⟨hlt, hid, hmat⟩ | ⟨hgt, hid, hmat⟩
    · exact ⟨fun a => by omega, fun b => by omega⟩
    · refine ⟨?_, fun b => by omega⟩
      rintro ⟨_, e | e⟩
      · exact hid e.symm
      · exact hmat e
    · refine ⟨fun a => by omega, ?_⟩
      rintro ⟨_, e | e⟩
      · exact hid e.symm
      · exact hmat e

/-- Witness of C15: slots of precedence 2 and 1 and a sample of precedence 3
with the material of slot 1, the slot of higher precedence. -/
theorem C15_ambiguity_rule_witness :
    front_step example_globals.default_material ambiguous_slots ambiguous_sample = none ↔
      (ambiguous_slots.id1 = ambiguous_slots.id2 ∨
       (ambiguous_slots.id1 < ambiguous_slots.id2 ∧ ambiguous_sample.id ≠ ambiguous_slots.id1 ∧
         material_type_equal ambiguous_slots.mat1
           (sample_material example_globals.default_material ambiguous_sample) = false) ∨
       (ambiguous_slots.id2 < ambiguous_slots.id1 ∧ ambiguous_sample.id ≠ ambiguous_slots.id2 ∧
         material_type_equal ambiguous_slots.mat2
           (sample_material example_globals.default_material ambiguous_sample) = false)) :=
  C15_ambiguity_rule example_globals.default_material ambiguous_slots ambiguous_sample
    (by simp [ambiguous_slots, ambiguous_sample]) (by simp [ambiguous_slots])
    (by simp [ambiguous_slots])
    (by simp [ambiguous_slots, ambiguous_sample, material_type_equal, example_front,
      example_back])

/-- Counterexample to C15 as stated: the samples of precedence 2 (permittivity
12) and 1 (permittivity 4) fill the two slots; a third sample of precedence 3
and permittivity 12 is no duplicate, does not satisfy the replacement condition
and has the material of slot 1, and it makes `get_front_object` return false. -/
theorem C15_abort_on_matching_sample :
    front_loop example_globals.default_material slots_init
      [⟨some example_front, ⟨0, 0, 0⟩, 2⟩, ⟨some example_back, ⟨0, 0, 0⟩, 1⟩] =
        some ambiguous_slots ∧
    ¬ ((ambiguous_sample.id = ambiguous_slots.id1 ∧
          ambiguous_sample.shiftby = ambiguous_slots.shiftby1) ∨
       (ambiguous_sample.id = ambiguous_slots.id2 ∧
          ambiguous_sample.shiftby = ambiguous_slots.shiftby2)) ∧
    ¬ ((ambiguous_sample.id ≥ ambiguous_slots.id1 ∧ ambiguous_sample.id ≥ ambiguous_slots.id2) ∧
        (ambiguous_slots.id1 = ambiguous_slots.id2 ∨
          material_type_equal ambiguous_slots.mat1 ambiguous_slots.mat2 = true)) ∧
    material_type_equal ambiguous_slots.mat1
      (sample_material example_globals.default_material ambiguous_sample) = true ∧
    front_step example_globals.default_material ambiguous_slots ambiguous_sample = none ∧
    front_of_samples example_globals.default_material ⟨0, 0, 0⟩
      [⟨some example_front, ⟨0, 0, 0⟩, 2⟩, ⟨some example_back, ⟨0, 0, 0⟩, 1⟩,
       ambiguous_sample] = none := by
  refine ⟨?_, ?_, ?_, ?_, ?_, ?_⟩
  · simp [front_loop, front_step, slots_init, ambiguous_slots, vector3_equal, sample_material,
      example_front, example_back]
  · simp [ambiguous_slots, ambiguous_sample]
  · simp [ambiguous_slots, ambiguous_sample, material_type_equal, example_front, example_back]
  · simp [ambiguous_slots, ambiguous_sample, material_type_equal, sample_material, example_front,
      example_cover]
  · simp [front_step, ambiguous_slots, ambiguous_sample, vector3_equal, sample_material,
      material_type_equal, example_front, example_back, example_cover]
  · simp [front_of_samples, front_loop, front_step, slots_init, ambiguous_sample, vector3_equal,
      sample_material, material_type_equal, example_front, example_back, example_cover]

/-- C16: dynamic materials force the fallback.  When the sample loop of
`get_front_object` ends with slots `st` without aborting, `get_front_object`
returns false if and only if, after a single slot has been copied into slot 2,
the material of candidate object 1 or of candidate object 2 is a material
function, or the default material is a material function and a candidate is no
object or has the material `MATERIAL_TYPE_SELF`.  Whenever it returns false,
`meaneps` is `fallback_meaneps` with the default normal. -/
theorem C16_dynamic_forces_fallback (ext : Library) (g : Globals) (s : geom_epsilon)
    (fuel : Nat) (gv : geometric_volume) (tol : ℚ) (maxeval : Int) (samples : List sample)
    (st : slots)
    (hs : stencil_samples ext g.dimensions gv s.geometry_tree = some samples)
    (hloop : front_loop g.default_material slots_init samples = some st) :
    (get_front_object ext g gv s.geometry_tree = .ok none ↔
      ((∃ o f, (slots_single st).o1 = some o ∧ o.material = .MATERIAL_FUNCTION f) ∨
       (∃ o f, (slots_single st).o2 = some o ∧ o.material = .MATERIAL_FUNCTION f) ∨
       ((∃ f, g.default_material = .MATERIAL_FUNCTION f) ∧
        ((slots_single st).o1 = none ∨ (slots_single st).o2 = none ∨
         (∃ o, (slots_single st).o1 = some o ∧ o.material = .MATERIAL_TYPE_SELF) ∨
         (∃ o, (slots_single st).o2 = some o ∧ o.material = .MATERIAL_TYPE_SELF))))) ∧
    (get_front_object ext g gv s.geometry_tree = .ok none →
      meaneps ext g s fuel gv tol maxeval =
        (fallback_meaneps ext g s fuel gv tol maxeval >>=
          fun m => Result.ok (m.1, m.2, ext.normal_vector gv))) := by
  constructor
  · rw [stencil_samples_loop ext g gv s.geometry_tree samples st hs hloop,
      ← slots_variable_iff]
    by_cases hv : slots_variable g.default_material (slots_single st) = true
    · simp [hv]
    · simp [hv]
  · intro h
    unfold meaneps
    rw [h]
    rfl

/-- Witness of C16: an object with a material function covers the cell. -/
theorem C16_dynamic_forces_fallback_witness :
    get_front_object dynamic_library example_globals (example_cell (-1) 1)
        example_facade.geometry_tree = .ok none ∧
    meaneps dynamic_library example_globals example_facade 0 (example_cell (-1) 1) (1 / 100) 0 =
      (fallback_meaneps dynamic_library example_globals example_facade 0 (example_cell (-1) 1)
          (1 / 100) 0 >>=
        fun m => Result.ok (m.1, m.2, dynamic_library.normal_vector (example_cell (-1) 1))) :=
  have hs : stencil_samples dynamic_library example_globals.dimensions (example_cell (-1) 1)
      example_facade.geometry_tree =
      some (List.replicate 5 ⟨some dynamic_object, ⟨0, 0, 0⟩, 1⟩) := by
    unfold stencil_samples
    rw [example_stencil_boundary]
    rfl
  have hloop : front_loop example_globals.default_material slots_init
      (List.replicate 5 ⟨some dynamic_object, ⟨0, 0, 0⟩, 1⟩) = some dynamic_slots := by
    simp [List.replicate, front_loop, front_step, slots_init, dynamic_slots, vector3_equal,
      sample_material, dynamic_object]
  have hfalse : get_front_object dynamic_library example_globals (example_cell (-1) 1)
      example_facade.geometry_tree = .ok none :=
    (C16_dynamic_forces_fallback dynamic_library example_globals example_facade 0
      (example_cell (-1) 1) (1 / 100) 0 _ dynamic_slots hs hloop).1.mpr
      (Or.inl ⟨dynamic_object, 0, by simp [slots_single, dynamic_slots, slots_init], rfl⟩)
  ⟨hfalse,
   (C16_dynamic_forces_fallback dynamic_library example_globals example_facade 0
      (example_cell (-1) 1) (1 / 100) 0 _ dynamic_slots hs hloop).2 hfalse⟩

/-- C17: front and behind from the two final slots.  Whenever
`get_front_object` succeeds, with `st` the slots after the loop and after a
single slot has been copied into slot 2: if `id1 > id2` it reports `o1`,
`shiftby1`, front material `mat1` and behind material `mat2`; if `id2 > id1` it
reports `o2`, `shiftby2`, `mat2` and behind material `mat1`; if `id1 = id2` it
reports `o1`, `shiftby1` and `mat1` as both front and behind material. -/
theorem C17_front_behind_assignment (ext : Library) (g : Globals) (gv : geometric_volume)
    (tree : geom_box_tree) (samples : List sample) (r : front_result)
    (hs : stencil_samples ext g.dimensions gv tree = some samples)
    (h : get_front_object ext g gv tree = .ok (some r)) :
    ∃ st0 : slots, front_loop g.default_material slots_init samples = some st0 ∧
      ((slots_single st0).id1 > (slots_single st0).id2 →
        r.o_front = (slots_single st0).o1 ∧ r.shiftby_front = (slots_single st0).shiftby1 ∧
        r.mat_front = (slots_single st0).mat1 ∧ r.mat_behind = (slots_single st0).mat2) ∧
      ((slots_single st0).id2 > (slots_single st0).id1 →
        r.o_front = (slots_single st0).o2 ∧ r.shiftby_front = (slots_single st0).shiftby2 ∧
        r.mat_front = (slots_single st0).mat2 ∧ r.mat_behind = (slots_single st0).mat1) ∧
      ((slots_single st0).id1 = (slots_single st0).id2 →
        r.o_front = (slots_single st0).o1 ∧ r.shiftby_front = (slots_single st0).shiftby1 ∧
        r.mat_front = (slots_single st0).mat1 ∧ r.mat_behind = (slots_single st0).mat1) := by
  obtain ⟨st0, hl, rfl⟩ := front_of_samples_some g.default_material (vec_to_vector3 gv.center)
    samples r (get_front_object_some ext g gv tree samples (some r) hs h)
  refine ⟨st0, hl, ?_, ?_, ?_⟩
  · intro hgt
    have hn : ¬ (slots_single st0).id2 > (slots_single st0).id1 := by omega
    have hne : (slots_single st0).id1 ≠ (slots_single st0).id2 := by omega
    simp [slots_front, hn, hne]
  · intro hgt
    simp [slots_front, hgt]
  · intro he
    have hn : ¬ (slots_single st0).id2 > (slots_single st0).id1 := by omega
    simp [slots_front, hn, he]

/-- Witness of C17: on the cell `[-1, 1] x [-1, 1]` of `example_library` slot 2
has the higher precedence and is reported as front. -/
theorem C17_front_behind_assignment_witness :
    ∃ st0 : slots,
      front_loop example_globals.default_material slots_init
        [⟨some example_back, ⟨0, 0, 0⟩, 1⟩, ⟨some example_front, ⟨0, 0, 0⟩, 2⟩,
         ⟨some example_back, ⟨0, 0, 0⟩, 1⟩, ⟨some example_front, ⟨0, 0, 0⟩, 2⟩,
         ⟨some example_back, ⟨0, 0, 0⟩, 1⟩] = some st0 ∧
      ((slots_single st0).id1 > (slots_single st0).id2 →
        some example_front = (slots_single st0).o1 ∧
        (⟨0, 0, 0⟩ : vector3) = (slots_single st0).shiftby1 ∧
        material_type.DIELECTRIC ⟨12, 0, 0, []⟩ = (slots_single st0).mat1 ∧
        material_type.DIELECTRIC ⟨4, 0, 0, []⟩ = (slots_single st0).mat2) ∧
      ((slots_single st0).id2 > (slots_single st0).id1 →
        some example_front = (slots_single st0).o2 ∧
        (⟨0, 0, 0⟩ : vector3) = (slots_single st0).shiftby2 ∧
        material_type.DIELECTRIC ⟨12, 0, 0, []⟩ = (slots_single st0).mat2 ∧
        material_type.DIELECTRIC ⟨4, 0, 0, []⟩ = (slots_single st0).mat1) ∧
      ((slots_single st0).id1 = (slots_single st0).id2 →
        some example_front = (slots_single st0).o1 ∧
        (⟨0, 0, 0⟩ : vector3) = (slots_single st0).shiftby1 ∧
        material_type.DIELECTRIC ⟨12, 0, 0, []⟩ = (slots_single st0).mat1 ∧
        material_type.DIELECTRIC ⟨4, 0, 0, []⟩ = (slots_single st0).mat1) :=
  C17_front_behind_assignment example_library example_globals (example_cell (-1) 1)
    example_facade.geometry_tree _ _ example_samples_boundary example_front_boundary

/-- C19: `has_chi3` agrees with `chi3`.  When no object material and not the
default material is a material function, and the tree answers every point with
the default material or with the material of an object of the list, then
`has_chi3()` false implies `chi3(p) = 0` at every point, and `has_chi2()` false
implies `chi2(p) = 0` at every point. -/
theorem C19_has_chi_consistent (ext : Library) (g : Globals) (s : geom_epsilon)
    (hobj : ∀ o ∈ s.geometry, variable_material o.material = false)
    (hdef : variable_material g.default_material = false)
    (hidx : ∀ p : vector3,
      ext.material_of_unshifted_point_in_tree_inobject p s.restricted_tree =
        g.default_material ∨
      ∃ o ∈ s.geometry,
        ext.material_of_unshifted_point_in_tree_inobject p s.restricted_tree = o.material) :
    (has_chi3 g s = false → ∀ (fuel : Nat) (r : vec), chi3 ext g s fuel r = .ok 0) ∧
    (has_chi2 g s = false → ∀ (fuel : Nat) (r : vec), chi2 ext g s fuel r = .ok 0) := by
  constructor
  · intro h fuel r
    obtain ⟨hO, hD⟩ := has_chi3_false g s h
    obtain ⟨m, hm, hin⟩ := point_material_static ext g s fuel (vec_to_vector3 r) hobj hdef
      (hidx (vec_to_vector3 r))
    unfold chi3
    simp only [hm, Result.ok_bind]
    cases m with
    | DIELECTRIC d =>
      simp only [Result.pure_eq]
      rcases hin with e | ⟨o, ho, e⟩
      · rw [hD d e.symm]
      · rw [hO o ho d e.symm]
    | PERFECT_METAL => rfl
    | MATERIAL_FUNCTION f => rfl
    | MATERIAL_TYPE_SELF => rfl
  · intro h fuel r
    obtain ⟨hO, hD⟩ := has_chi2_false g s h
    obtain ⟨m, hm, hin⟩ := point_material_static ext g s fuel (vec_to_vector3 r) hobj hdef
      (hidx (vec_to_vector3 r))
    unfold chi2
    simp only [hm, Result.ok_bind]
    cases m with
    | DIELECTRIC d =>
      simp only [Result.pure_eq]
      rcases hin with e | ⟨o, ho, e⟩
      · rw [hD d e.symm]
      · rw [hO o ho d e.symm]
    | PERFECT_METAL => rfl
    | MATERIAL_FUNCTION f => rfl
    | MATERIAL_TYPE_SELF => rfl

/-- Witness of C19: the two linear dielectrics of `example_library`. -/
theorem C19_has_chi_consistent_witness :
    (has_chi3 example_globals example_facade = false →
      ∀ (fuel : Nat) (r : vec),
        chi3 example_library example_globals example_facade fuel r = .ok 0) ∧
    (has_chi2 example_globals example_facade = false →
      ∀ (fuel : Nat) (r : vec),
        chi2 example_library example_globals example_facade fuel r = .ok 0) :=
  C19_has_chi_consistent example_library example_globals example_facade
    (by simp [example_facade, example_back, example_front, variable_material])
    (by simp [example_globals, variable_material])
    (by
      intro p
      right
      by_cases hx : p.x < 0
      · exact ⟨example_front, by simp [example_facade], by simp [example_library, hx]⟩
      · exact ⟨example_back, by simp [example_facade], by simp [example_library, hx]⟩)

/-- C20: `normal_vector` agrees with `meaneps`.  Whenever `meaneps` returns,
for any tolerance and evaluation budget, `normal_vector` returns the normal
that `meaneps` put out.  It is the default normal when `get_front_object`
returns false, the zero vector when front and behind material are equal, and
otherwise the unit normal of the front object at the centre moved back by the
shift of that object. -/
theorem C20_normal_vector_agrees (ext : Library) (g : Globals) (s : geom_epsilon) (fuel : Nat)
    (gv : geometric_volume) (tol : ℚ) (maxeval : Int) (meps minveps : ℚ) (n : vec)
    (h : meaneps ext g s fuel gv tol maxeval = .ok (meps, minveps, n)) :
    normal_vector ext g s gv = .ok n ∧
    (get_front_object ext g gv s.geometry_tree = .ok none → n = ext.normal_vector gv) ∧
    (∀ r : front_result, get_front_object ext g gv s.geometry_tree = .ok (some r) →
      material_type_equal r.mat_front r.mat_behind = true → n = zero_vec gv.dim) ∧
    (∀ (r : front_result) (o : geometric_object),
      get_front_object ext g gv s.geometry_tree = .ok (some r) →
      material_type_equal r.mat_front r.mat_behind = false → r.o_front = some o →
      vector3_to_vec g.dim (ext.unit_vector3
        (ext.normal_to_fixed_object (vector3_minus r.pcenter r.shiftby_front) o)) = .ok n) := by
  unfold meaneps at h
  unfold normal_vector
  cases hf : get_front_object ext g gv s.geometry_tree with
  | abort m => rw [hf] at h; exact absurd h (by simp [Bind.bind, Result.bind])
  | undefined => rw [hf] at h; exact absurd h (by simp [Bind.bind, Result.bind])
  | timeout => rw [hf] at h; exact absurd h (by simp [Bind.bind, Result.bind])
  | ok front =>
    rw [hf] at h
    simp only [Result.ok_bind] at h ⊢
    cases front with
    | none =>
      simp only at h ⊢
      cases hfb : fallback_meaneps ext g s fuel gv tol maxeval with
      | abort m => rw [hfb] at h; exact absurd h (by simp [Bind.bind, Result.bind])
      | undefined => rw [hfb] at h; exact absurd h (by simp [Bind.bind, Result.bind])
      | timeout => rw [hfb] at h; exact absurd h (by simp [Bind.bind, Result.bind])
      | ok m =>
        rw [hfb] at h
        simp only [Result.ok_bind, Result.pure_eq, Result.ok.injEq, Prod.mk.injEq] at h
        refine ⟨by rw [h.2.2]; rfl, fun _ => h.2.2.symm, ?_, ?_⟩
        · intro r hr; exact absurd hr (by simp)
        · intro r o hr; exact absurd hr (by simp)
    | some r =>
      simp only at h ⊢
      cases hme : material_eps ext r.mat_front with
      | abort m => rw [hme] at h; exact absurd h (by simp [Bind.bind, Result.bind])
      | undefined => rw [hme] at h; exact absurd h (by simp [Bind.bind, Result.bind])
      | timeout => rw [hme] at h; exact absurd h (by simp [Bind.bind, Result.bind])
      | ok m =>
        rw [hme] at h
        simp only [Result.ok_bind] at h
        by_cases heq : material_type_equal r.mat_front r.mat_behind = true
        · simp only [heq, if_true, Result.pure_eq, Result.ok.injEq, Prod.mk.injEq] at h ⊢
          refine ⟨by rw [h.2.2], fun hc => absurd hc (by simp), ?_, ?_⟩
          · intro r' _ _; exact h.2.2.symm
          · intro r' o hr' hne
            obtain rfl : r = r' := by simpa using hr'
            rw [heq] at hne
            exact absurd hne (by simp)
        · have heq' : material_type_equal r.mat_front r.mat_behind = false := by
            simpa using heq
          simp only [heq', Bool.false_eq_true, if_false] at h ⊢
          cases ho : r.o_front with
          | none => rw [ho] at h; exact absurd h (by simp)
          | some o =>
            rw [ho] at h
            simp only at h ⊢
            cases hn : vector3_to_vec g.dim (ext.unit_vector3
                (ext.normal_to_fixed_object (vector3_minus r.pcenter r.shiftby_front) o)) with
            | abort m => rw [hn] at h; exact absurd h (by simp [Bind.bind, Result.bind])
            | undefined => rw [hn] at h; exact absurd h (by simp [Bind.bind, Result.bind])
            | timeout => rw [hn] at h; exact absurd h (by simp [Bind.bind, Result.bind])
            | ok n' =>
              rw [hn] at h
              simp only [Result.ok_bind] at h
              cases hmb : material_eps ext r.mat_behind with
              | abort m => rw [hmb] at h; exact absurd h (by simp [Bind.bind, Result.bind])
              | undefined => rw [hmb] at h; exact absurd h (by simp [Bind.bind, Result.bind])
              | timeout => rw [hmb] at h; exact absurd h (by simp [Bind.bind, Result.bind])
              | ok b =>
                rw [hmb] at h
                simp only [Result.ok_bind, Result.pure_eq, Result.ok.injEq,
                  Prod.mk.injEq] at h
                refine ⟨by rw [h.2.2], fun hc => absurd hc (by simp), ?_, ?_⟩
                · intro r' hr' he
                  obtain rfl : r = r' := by simpa using hr'
                  exact absurd he heq
                · intro r' o' hr' _ ho'
                  obtain rfl : r = r' := by simpa using hr'
                  rw [ho] at ho'
                  rw [← Option.some.inj ho', hn, h.2.2]

theorem example_meaneps_boundary :
    meaneps example_library example_globals example_facade 0 (example_cell (-1) 1) (1 / 100) 0 =
      .ok (8, 1 / 6, .d2 1 0) := by
  unfold meaneps
  rw [example_front_boundary]
  norm_num [material_eps, material_type_equal, example_library, example_globals,
    vector3_to_vec, vector3_minus, gv2box]

/-- Witness of C20: the cell `[-1, 1] x [-1, 1]` of `example_library`, where
`meaneps` returns the normal `(1, 0)`. -/
theorem C20_normal_vector_agrees_witness :
    normal_vector example_library example_globals example_facade (example_cell (-1) 1) =
      .ok (.d2 1 0) :=
  (C20_normal_vector_agrees example_library example_globals example_facade 0
    (example_cell (-1) 1) (1 / 100) 0 8 (1 / 6) (.d2 1 0) example_meaneps_boundary).1

/-- C21, with the failing input `dims = 0`.  The switch of `make_structure`
builds a volume exactly for `dims` in `0, 1, 2, 3, CYLINDRICAL`.  For
`1, 2, 3` and `CYLINDRICAL`, after `set_dimensions(dims)` the index
`dimensions - 1` lies in `{0, 1, 2}`, both stencil tables have a row there and
`dim` is one of the four enumerators.  For `dims = 0`, for which the switch
builds the one-dimensional volume, `set_dimensions` leaves `dimensions = 0`:
the index is `-1`, outside both tables, `dim` is no enumerator, and
`make_structure` aborts in `vector3_to_vec`. -/
theorem C21_stencil_index (CYLINDRICAL : Int) (g : Globals)
    (h0 : CYLINDRICAL ≠ 0) (h1 : CYLINDRICAL ≠ 1) (h2 : CYLINDRICAL ≠ 2)
    (h3 : CYLINDRICAL ≠ 3) :
    (∀ dims : Int, (∃ k, make_structure_volume CYLINDRICAL dims = .ok k) ↔
      (dims = 0 ∨ dims = 1 ∨ dims = 2 ∨ dims = 3 ∨ dims = CYLINDRICAL)) ∧
    (∀ dims : Int, (dims = 1 ∨ dims = 2 ∨ dims = 3 ∨ dims = CYLINDRICAL) →
      ((set_dimensions CYLINDRICAL g dims).dimensions - 1 = 0 ∨
       (set_dimensions CYLINDRICAL g dims).dimensions - 1 = 1 ∨
       (set_dimensions CYLINDRICAL g dims).dimensions - 1 = 2) ∧
      (∃ n, num_neighbors ((set_dimensions CYLINDRICAL g dims).dimensions - 1) = some n) ∧
      (∃ row, neighbors ((set_dimensions CYLINDRICAL g dims).dimensions - 1) = some row) ∧
      (∃ d, (set_dimensions CYLINDRICAL g dims).dim = some d)) ∧
    (make_structure_volume CYLINDRICAL 0 = .ok .vol1d ∧
      (set_dimensions CYLINDRICAL g 0).dimensions - 1 = -1 ∧
      num_neighbors ((set_dimensions CYLINDRICAL g 0).dimensions - 1) = none ∧
      neighbors ((set_dimensions CYLINDRICAL g 0).dimensions - 1) = none ∧
      (set_dimensions CYLINDRICAL g 0).dim = none ∧
      (∀ center : vector3, make_structure_origin CYLINDRICAL g 0 center =
        .abort "unknown dimensionality in vector3_to_vec") ∧
      (∀ (ext : Library) (gv : geometric_volume) (tree : geom_box_tree),
        get_front_object ext (set_dimensions CYLINDRICAL g 0) gv tree = .undefined)) := by
  refine ⟨?_, ?_, ?_⟩
  · intro dims
    unfold make_structure_volume
    constructor
    · rintro ⟨k, hk⟩
      by_cases a : dims = 0 ∨ dims = 1
      · rcases a with a | a
        · exact Or.inl a
        · exact Or.inr (Or.inl a)
      · rw [if_neg a] at hk
        by_cases b : dims = 2
        · exact Or.inr (Or.inr (Or.inl b))
        · rw [if_neg b] at hk
          by_cases c : dims = 3
          · exact Or.inr (Or.inr (Or.inr (Or.inl c)))
          · rw [if_neg c] at hk
            by_cases d : dims = CYLINDRICAL
            · exact Or.inr (Or.inr (Or.inr (Or.inr d)))
            · rw [if_neg d] at hk
              exact absurd hk (by simp)
    · rintro (a | a | a | a | a)
      · exact ⟨.vol1d, by simp [a]⟩
      · exact ⟨.vol1d, by simp [a]⟩
      · exact ⟨.vol2d, by simp [a]⟩
      · exact ⟨.vol3d, by simp [a]⟩
      · subst a
        exact ⟨.volcyl, by simp [h0, h1, h2, h3]⟩
  · intro dims hd
    unfold set_dimensions
    by_cases hc : dims = CYLINDRICAL
    · simp [hc, num_neighbors, neighbors]
    · rcases hd with a | a | a | a
      · subst a
        simp [Ne.symm h1, num_neighbors, neighbors, ndim_of_int]
      · subst a
        simp [Ne.symm h2, num_neighbors, neighbors, ndim_of_int]
      · subst a
        simp [Ne.symm h3, num_neighbors, neighbors, ndim_of_int]
      · exact absurd a hc
  · have hset : set_dimensions CYLINDRICAL g 0 =
        { g with dimensions := 0, dim := ndim_of_int (0 - 1) } := by
      unfold set_dimensions
      rw [if_neg (Ne.symm h0)]
    have hdim : ndim_of_int (0 - 1) = none := by decide
    refine ⟨by simp [make_structure_volume], ?_, ?_, ?_, ?_, ?_, ?_⟩
    · rw [hset]; rfl
    · rw [hset]; rfl
    · rw [hset]; rfl
    · rw [hset]; exact hdim
    · intro center
      unfold make_structure_origin
      rw [hset, hdim]
      simp [make_structure_volume, vector3_to_vec]
      rfl
    · intro ext gv tree
      unfold get_front_object stencil_samples stencil_points
      rw [hset]
      simp [num_neighbors]

/-- Witness of C21: `CYLINDRICAL = -2`. -/
theorem C21_stencil_index_witness :
    make_structure_volume (-2) 0 = .ok .vol1d ∧
    (set_dimensions (-2) example_globals 0).dimensions - 1 = -1 ∧
    num_neighbors ((set_dimensions (-2) example_globals 0).dimensions - 1) = none ∧
    neighbors ((set_dimensions (-2) example_globals 0).dimensions - 1) = none ∧
    (set_dimensions (-2) example_globals 0).dim = none ∧
    (∀ center : vector3, make_structure_origin (-2) example_globals 0 center =
      .abort "unknown dimensionality in vector3_to_vec") ∧
    (∀ (ext : Library) (gv : geometric_volume) (tree : geom_box_tree),
      get_front_object ext (set_dimensions (-2) example_globals 0) gv tree = .undefined) :=
  (C21_stencil_index (-2) example_globals (by decide) (by decide) (by decide) (by decide)).2.2

/-- C22: coordinate conversion round trip.  For each global dimensionality
`dim` and every `vec` `v` with `v.dim = dim`, `vector3_to_vec (vec_to_vector3
v)` returns `v`; and for every `vector3` `w`, `vec_to_vector3 (vector3_to_vec
w)` is `w` with the inactive components set to zero: `x` and `y` in one
dimension, `z` in two, none in three, `y` in cylindrical coordinates. -/
theorem C22_conversion_round_trip :
    (∀ (dim : ndim) (v : vec), v.dim = dim →
      vector3_to_vec (some dim) (vec_to_vector3 v) = .ok v) ∧
    (∀ w : vector3, ∃ v, vector3_to_vec (some .D1) w = .ok v ∧
      vec_to_vector3 v = ⟨0, 0, w.z⟩) ∧
    (∀ w : vector3, ∃ v, vector3_to_vec (some .D2) w = .ok v ∧
      vec_to_vector3 v = ⟨w.x, w.y, 0⟩) ∧
    (∀ w : vector3, ∃ v, vector3_to_vec (some .D3) w = .ok v ∧
      vec_to_vector3 v = w) ∧
    (∀ w : vector3, ∃ v, vector3_to_vec (some .Dcyl) w = .ok v ∧
      vec_to_vector3 v = ⟨w.x, 0, w.z⟩) := by
  refine ⟨?_, ?_, ?_, ?_, ?_⟩
  · intro dim v hv
    subst hv
    cases v <;> rfl
  · intro w; exact ⟨_, rfl, rfl⟩
  · intro w; exact ⟨_, rfl, rfl⟩
  · intro w; exact ⟨_, rfl, rfl⟩
  · intro w; exact ⟨_, rfl, rfl⟩

/-- Counterexample to C4 as stated: with `eps(A) = 8.77`, `eps(B) = 3.02` (the
binary64 numbers nearest to these) and the overlap fraction `f = 0`, the
blending statements of `meaneps`, rounded as `double` operations, return
`3.0199999999999996`, one unit in the last place below `eps(B)`, the smaller
of the two permittivities: the difference `3.02 - 8.77` rounds to `-5.75`. -/
theorem C4_double_below_min :
    fl (877 / 100) = 2468535545752453 / 281474976710656 ∧
    fl (302 / 100) = 6800435437329449 / 2251799813685248 ∧
    ((0 : ℚ) ≤ 0 ∧ (0 : ℚ) ≤ 1) ∧
    blend_double (fl (877 / 100)) (fl (302 / 100)) 0 = 850054429666181 / 281474976710656 ∧
    blend_double (fl (877 / 100)) (fl (302 / 100)) 0 <
      min (fl (877 / 100)) (fl (302 / 100)) := by
  have hb : blend_double (fl (877 / 100)) (fl (302 / 100)) 0 =
      850054429666181 / 281474976710656 := by
    unfold blend_double
    simp only [sub_zero, fl_one, fl_877, fl_302, fl_difference, fl_product, fl_sum]
  refine ⟨fl_877, fl_302, ⟨le_refl _, by norm_num⟩, hb, ?_⟩
  rw [hb, fl_877, fl_302]
  norm_num

end Meep
